import Mathlib

/-!
# Go_API_Train_Demo: a shallow embedding of `main.go`

The program is an HTTP API over one SQL table of train trips.  This file
embeds, as executable Lean definitions,

* the pieces of the Go standard library the handlers rely on
  (`strings.Split`, `reflect.StructTag.Lookup`, the `encoding/json` encoder
  and stream decoder, `http.Header`, `http.ResponseWriter`),
* the table `train_trip` with the three statements the program sends to it,
* the functions of `main.go` under their own names: `getTrainTrip`,
  `insertTrain`, `updateTrain`, `handleTrains`, `handleTrainTrip`,
  `corsMiddleware`.

Conventions.  A Go `string` is a Lean `String` (text that is valid UTF-8).
A Go result pair `(x, err)` is a Lean pair whose second component is
`none` for `err == nil`.  A `[]TrainInfo` is a `List TrainInfo`; the only
empty slice the program ever builds is the nil slice, which is `[]`.
Global state (`Db`) is passed explicitly; what the SQL driver does on one
call (time of day, connection failures) is the explicit input `Env`.
-/

set_option autoImplicit false

namespace GoApiTrain

/-! ## `strings` -/

namespace strings

/-- Worker of `Split`: walks the text once; `skip` counts the characters of a
separator occurrence still to be dropped, `cur` is the current piece,
reversed. -/
def splitGo (sep : List Char) : Nat → List Char → List Char → List (List Char)
  | _, [], cur => [cur.reverse]
  | skip + 1, _ :: cs, cur => splitGo sep skip cs cur
  | 0, c :: cs, cur =>
    if sep.isPrefixOf (c :: cs) then cur.reverse :: splitGo sep (sep.length - 1) cs []
    else splitGo sep 0 cs (c :: cur)

/-- Go `strings.Split(s, sep)` for a non-empty separator: the pieces of `s`
between the non-overlapping occurrences of `sep`, found left to right. -/
def Split (s sep : String) : List String :=
  (splitGo sep.data 0 s.data []).map String.mk

end strings

/-! ## `reflect.StructTag` -/

namespace reflect

/-- A character that may stand in a tag key: above the space, and not a colon,
a quote or DEL. -/
def isKeyChar (c : Char) : Bool :=
  decide (' ' < c) && c != ':' && c != '"' && c != Char.ofNat 0x7f

/-- The `strconv.Unquote` step of `Lookup` on the text between the quotes.
Values without a backslash or newline are returned as they are; escape
sequences are not modelled and count as a failed lookup (no tag of this
program has one). -/
def unquote (q : List Char) : Option (List Char) :=
  if q.contains '\\' || q.contains '\n' then none else some q

/-- Where the scan of a tag stands: before a pair, inside its key, after the
colon, inside the quoted value, or right after a backslash in the value. -/
inductive TagScan where
  | start
  | inKey (name : List Char)
  | afterColon (name : List Char)
  | inValue (name q : List Char)
  | escaped (name q : List Char)

/-- The loop of `StructTag.Lookup`, one character at a time.  Spaces are
skipped before a pair only; a key is a non-empty run of key characters; the
colon must be followed at once by the opening quote; the value runs to the
next quote that no backslash precedes.  Anything else ends the scan with
nothing found. -/
def lookupGo (key : List Char) : TagScan → List Char → Option (List Char)
  | .start, [] => none
  | .start, c :: cs =>
    if c = ' ' then lookupGo key .start cs
    else if isKeyChar c then lookupGo key (.inKey [c]) cs
    else none
  | .inKey _, [] => none
  | .inKey name, c :: cs =>
    if isKeyChar c then lookupGo key (.inKey (name ++ [c])) cs
    else if c = ':' then lookupGo key (.afterColon name) cs
    else none
  | .afterColon _, [] => none
  | .afterColon name, c :: cs =>
    if c = '"' then lookupGo key (.inValue name []) cs else none
  | .inValue _ _, [] => none
  | .inValue name q, c :: cs =>
    if c = '"' then (if key = name then unquote q else lookupGo key .start cs)
    else if c = '\\' then lookupGo key (.escaped name (q ++ [c])) cs
    else lookupGo key (.inValue name (q ++ [c])) cs
  | .escaped _ _, [] => none
  | .escaped name q, c :: cs => lookupGo key (.inValue name (q ++ [c])) cs

/-- Go `reflect.StructTag.Lookup`: the value of `key` in a tag written as
space-separated `key:"value"` pairs.  The scan stops at the first pair that
is not of that form: after the key must come a colon and, immediately, a
double quote. -/
def StructTag.Lookup (tag key : String) : Option String :=
  (lookupGo key.data .start tag.data).map String.mk

/-- Go `reflect.StructTag.Get`: `Lookup`, with the empty string for a key that
is not found. -/
def StructTag.Get (tag key : String) : String :=
  (StructTag.Lookup tag key).getD ""

end reflect

/-! ## The trip record -/

/-- The struct `TrainInfo` (main.go 16-26). -/
structure TrainInfo where
  TripID : String
  TrainNo : String
  TrainTypeNameTh : String
  OriginStationNo : String
  DestStationNo : String
  TripDate : String
  OriginTime : String
  DestTime : String
  TotalDistance : String
  deriving DecidableEq

/-- The nine fields of `TrainInfo`, as places a value can be read from or
stored to (`&traininfo.TripID` and so on). -/
inductive Field where
  | TripID
  | TrainNo
  | TrainTypeNameTh
  | OriginStationNo
  | DestStationNo
  | TripDate
  | OriginTime
  | DestTime
  | TotalDistance
  deriving DecidableEq

/-- Read a field. -/
def TrainInfo.get (t : TrainInfo) : Field → String
  | .TripID => t.TripID
  | .TrainNo => t.TrainNo
  | .TrainTypeNameTh => t.TrainTypeNameTh
  | .OriginStationNo => t.OriginStationNo
  | .DestStationNo => t.DestStationNo
  | .TripDate => t.TripDate
  | .OriginTime => t.OriginTime
  | .DestTime => t.DestTime
  | .TotalDistance => t.TotalDistance

/-- Store into a field. -/
def TrainInfo.set (t : TrainInfo) (f : Field) (s : String) : TrainInfo :=
  match f with
  | .TripID => { t with TripID := s }
  | .TrainNo => { t with TrainNo := s }
  | .TrainTypeNameTh => { t with TrainTypeNameTh := s }
  | .OriginStationNo => { t with OriginStationNo := s }
  | .DestStationNo => { t with DestStationNo := s }
  | .TripDate => { t with TripDate := s }
  | .OriginTime => { t with OriginTime := s }
  | .DestTime => { t with DestTime := s }
  | .TotalDistance => { t with TotalDistance := s }

/-- The zero value of `TrainInfo` (`var traininfo TrainInfo`). -/
def TrainInfo.zero : TrainInfo := ⟨"", "", "", "", "", "", "", "", ""⟩

/-- A struct field as reflection shows it: its Go name and its tag, the tag
exactly as written between the back quotes in the source. -/
structure StructField where
  Name : String
  Tag : String
  field : Field
  deriving DecidableEq

/-- The fields of `TrainInfo` with their tags, copied from main.go 17-25.  Each
tag has a space between `json:` and the quoted name. -/
def TrainInfo.structFields : List StructField :=
  [ ⟨"TripID", "json: \"trip_Id\"", .TripID⟩,
    ⟨"TrainNo", "json: \"train_No\"", .TrainNo⟩,
    ⟨"TrainTypeNameTh", "json: \"train_Type_Name_Th\"", .TrainTypeNameTh⟩,
    ⟨"OriginStationNo", "json: \"origin_Station_No\"", .OriginStationNo⟩,
    ⟨"DestStationNo", "json: \"dest_Station_No\"", .DestStationNo⟩,
    ⟨"TripDate", "json: \"trip_Date\"", .TripDate⟩,
    ⟨"OriginTime", "json: \"origin_Time\"", .OriginTime⟩,
    ⟨"DestTime", "json: \"dest_Time\"", .DestTime⟩,
    ⟨"TotalDistance", "json: \"total_Distance\"", .TotalDistance⟩ ]

/-! ## `encoding/json` -/

namespace json

/-- JSON white space. -/
def isSpace (c : Char) : Bool := c == ' ' || c == '\t' || c == '\r' || c == '\n'

/-- Drop leading white space. -/
def skipSpace : List Char → List Char
  | [] => []
  | c :: cs => if isSpace c then skipSpace cs else c :: cs

/-- A JSON value. -/
inductive Value where
  | null
  | bool (b : Bool)
  | number (raw : List Char)
  | string (s : List Char)
  | array (elems : List Value)
  | object (members : List (List Char × Value))

/-- The value of a hexadecimal digit. -/
def hexVal (c : Char) : Option Nat :=
  if '0' ≤ c ∧ c ≤ '9' then some (c.toNat - '0'.toNat)
  else if 'a' ≤ c ∧ c ≤ 'f' then some (c.toNat - 'a'.toNat + 10)
  else if 'A' ≤ c ∧ c ≤ 'F' then some (c.toNat - 'A'.toNat + 10)
  else none

/-- The number written by the four hexadecimal digits of a `\u` escape. -/
def getu4 (a b c d : Char) : Option Nat :=
  match hexVal a, hexVal b, hexVal c, hexVal d with
  | some a, some b, some c, some d => some (((a * 16 + b) * 16 + c) * 16 + d)
  | _, _, _, _ => none

/-- U+FFFD, written for an escape that is not a Unicode scalar value. -/
def replacementChar : Char := Char.ofNat 0xFFFD

/-- First half of a UTF-16 surrogate pair. -/
def isHighSurrogate (r : Nat) : Bool := 0xD800 ≤ r && r < 0xDC00

/-- Second half of a UTF-16 surrogate pair. -/
def isLowSurrogate (r : Nat) : Bool := 0xDC00 ≤ r && r < 0xE000

/-- What a pending first half of a surrogate pair becomes when no second half
follows it. -/
def flush (pending : Option Nat) : List Char :=
  match pending with
  | some _ => [replacementChar]
  | none => []

/-- Put `out` in front of the text a scan returns. -/
def emit (out : List Char) (r : Option (List Char × List Char)) :
    Option (List Char × List Char) :=
  r.map (fun p => (out ++ p.1, p.2))

/-- Scan and unquote a string literal, the opening quote already read: the
text of the string and what follows the closing quote; `none` for a literal
that is malformed or not closed.  `pending` holds the first half of a
surrogate pair read from the preceding `\u` escape. -/
def unquoteTail : Option Nat → List Char → Option (List Char × List Char)
  | _, [] => none
  | pending, '"' :: cs => some (flush pending, cs)
  | pending, '\\' :: 'u' :: a :: b :: c :: d :: cs =>
    match getu4 a b c d with
    | none => none
    | some r =>
      match pending with
      | some hi =>
        if isLowSurrogate r then
          emit [Char.ofNat ((hi - 0xD800) * 0x400 + (r - 0xDC00) + 0x10000)]
            (unquoteTail none cs)
        else if isHighSurrogate r then emit [replacementChar] (unquoteTail (some r) cs)
        else emit [replacementChar, Char.ofNat r] (unquoteTail none cs)
      | none =>
        if isHighSurrogate r then unquoteTail (some r) cs
        else if isLowSurrogate r then emit [replacementChar] (unquoteTail none cs)
        else emit [Char.ofNat r] (unquoteTail none cs)
  | pending, '\\' :: e :: cs =>
    let put (c : Char) := emit (flush pending ++ [c]) (unquoteTail none cs)
    if e = '"' then put '"'
    else if e = '\\' then put '\\'
    else if e = '/' then put '/'
    else if e = 'b' then put (Char.ofNat 8)
    else if e = 'f' then put (Char.ofNat 12)
    else if e = 'n' then put '\n'
    else if e = 'r' then put '\r'
    else if e = 't' then put '\t'
    else none
  | pending, c :: cs =>
    if c.toNat < 0x20 then none
    else emit (flush pending ++ [c]) (unquoteTail none cs)

/-- A decimal digit. -/
def isDigit (c : Char) : Bool := decide ('0' ≤ c) && decide (c ≤ '9')

/-- The longest run of digits, and what follows. -/
def spanDigits : List Char → List Char × List Char
  | [] => ([], [])
  | c :: cs =>
    if isDigit c then ((spanDigits cs).1.cons c, (spanDigits cs).2) else ([], c :: cs)

/-- Integer part of a number: `0`, or a non-zero digit and more digits. -/
def scanInt (cs : List Char) : Option (List Char × List Char) :=
  match cs with
  | '0' :: rest => some (['0'], rest)
  | c :: rest =>
    if isDigit c then some (c :: (spanDigits rest).1, (spanDigits rest).2) else none
  | [] => none

/-- Optional fraction: a point and one digit or more. -/
def scanFrac (cs : List Char) : Option (List Char × List Char) :=
  match cs with
  | '.' :: rest =>
    match spanDigits rest with
    | ([], _) => none
    | (ds, rest') => some ('.' :: ds, rest')
  | _ => some ([], cs)

/-- Digits of an exponent, `pre` being the `e` and sign already read. -/
def scanExpDigits (pre : List Char) (cs : List Char) : Option (List Char × List Char) :=
  match spanDigits cs with
  | ([], _) => none
  | (ds, rest) => some (pre ++ ds, rest)

/-- Optional exponent. -/
def scanExp (cs : List Char) : Option (List Char × List Char) :=
  match cs with
  | 'e' :: '+' :: rest => scanExpDigits ['e', '+'] rest
  | 'e' :: '-' :: rest => scanExpDigits ['e', '-'] rest
  | 'E' :: '+' :: rest => scanExpDigits ['E', '+'] rest
  | 'E' :: '-' :: rest => scanExpDigits ['E', '-'] rest
  | 'e' :: rest => scanExpDigits ['e'] rest
  | 'E' :: rest => scanExpDigits ['E'] rest
  | _ => some ([], cs)

/-- A number without its sign. -/
def scanUnsigned (cs : List Char) : Option (List Char × List Char) :=
  match scanInt cs with
  | none => none
  | some (i, r1) =>
    match scanFrac r1 with
    | none => none
    | some (f, r2) =>
      match scanExp r2 with
      | none => none
      | some (e, r3) => some (i ++ f ++ e, r3)

/-- A number literal. -/
def scanNumber (cs : List Char) : Option (List Char × List Char) :=
  match cs with
  | '-' :: rest => (scanUnsigned rest).map (fun p => ('-' :: p.1, p.2))
  | _ => scanUnsigned cs

/-- One of the literals `true`, `false`, `null`, its first letter already read:
`lit` is the rest of its spelling. -/
def literal (lit : List Char) (v : Value) (cs : List Char) : Option (Value × List Char) :=
  if lit.isPrefixOf cs then some (v, cs.drop lit.length) else none

mutual
/-- Read one JSON value from the front of the text: the value and the text
that follows it, which is not looked at.  `none` when the text does not
start with a well-formed value.  The first argument bounds the nesting of
calls; any bound above the length of the text gives the same result
(`parseValue_fuel`). -/
def parseValue : Nat → List Char → Option (Value × List Char)
  | 0, _ => none
  | n + 1, cs =>
    match skipSpace cs with
    | [] => none
    | c :: rest =>
      if c = '{' then
        match skipSpace rest with
        | [] => none
        | d :: rest' =>
          if d = '}' then some (.object [], rest')
          else (parseMembers n (d :: rest')).map (fun p => (.object p.1, p.2))
      else if c = '[' then
        match skipSpace rest with
        | [] => none
        | d :: rest' =>
          if d = ']' then some (.array [], rest')
          else
            match parseValue n (d :: rest') with
            | none => none
            | some (v, r1) => (parseElements n r1).map (fun p => (.array (v :: p.1), p.2))
      else if c = '"' then (unquoteTail none rest).map (fun p => (.string p.1, p.2))
      else if c = 't' then literal ['r', 'u', 'e'] (.bool true) rest
      else if c = 'f' then literal ['a', 'l', 's', 'e'] (.bool false) rest
      else if c = 'n' then literal ['u', 'l', 'l'] .null rest
      else (scanNumber (c :: rest)).map (fun p => (.number p.1, p.2))
/-- The members of an object up to its closing brace, the opening brace
already read and the object known not to be empty. -/
def parseMembers : Nat → List Char → Option (List (List Char × Value) × List Char)
  | 0, _ => none
  | n + 1, cs =>
    match skipSpace cs with
    | [] => none
    | c :: rest =>
      if c = '"' then
        match unquoteTail none rest with
        | none => none
        | some (key, r1) =>
          match skipSpace r1 with
          | [] => none
          | c1 :: r2 =>
            if c1 = ':' then
              match parseValue n r2 with
              | none => none
              | some (v, r3) =>
                match skipSpace r3 with
                | [] => none
                | c3 :: r4 =>
                  if c3 = ',' then
                    (parseMembers n r4).map (fun p => ((key, v) :: p.1, p.2))
                  else if c3 = '}' then some ([(key, v)], r4)
                  else none
            else none
      else none
/-- What follows an element of an array: a comma and the next element, or the
closing bracket. -/
def parseElements : Nat → List Char → Option (List Value × List Char)
  | 0, _ => none
  | n + 1, cs =>
    match skipSpace cs with
    | [] => none
    | c :: r1 =>
      if c = ',' then
        match parseValue n r1 with
        | none => none
        | some (v, r2) => (parseElements n r2).map (fun p => (v :: p.1, p.2))
      else if c = ']' then some ([], r1)
      else none
end

/-- The `readValue` step of `Decoder.Decode`: the first value of the stream. -/
def readValue (s : String) : Option (Value × List Char) :=
  parseValue (s.length + 1) s.data

/-- Go `json.Valid`: the whole text is one JSON value, white space around it
allowed. -/
def Valid (s : String) : Bool :=
  match readValue s with
  | some (_, rest) => (skipSpace rest).isEmpty
  | none => false

/-- Characters a JSON field name taken from a tag may contain besides letters
and digits (`isValidTag`). -/
def tagPunct : List Char := "!#$%&()*+-./:;<=>?@[]^_\x7b|\x7d~ ".data

/-- Go `isValidTag`: the name is not empty and made of letters, digits and the
punctuation above.  Letters and digits are the ASCII ones here. -/
def isValidTag (s : String) : Bool :=
  !s.data.isEmpty && s.data.all (fun c => tagPunct.contains c || c.isAlphanum)

/-- The part of a tag value before its first comma (`parseTag`). -/
def tagName : List Char → List Char
  | [] => []
  | c :: cs => if c = ',' then [] else c :: tagName cs

/-- The JSON key of a struct field, as `typeFields` computes it: the name
given by the `json` key of its tag when there is a valid one, the Go field
name otherwise; `none` for a field tagged `-`, which is left out. -/
def fieldKey (sf : StructField) : Option String :=
  let tag := reflect.StructTag.Get sf.Tag "json"
  if tag = "-" then none
  else
    let name := String.mk (tagName tag.data)
    if isValidTag name then some name else some sf.Name

/-- The JSON keys of `TrainInfo` with the field each one stands for, in field
order. -/
def trainInfoKeys : List (String × Field) :=
  TrainInfo.structFields.filterMap (fun sf => (fieldKey sf).map (fun k => (k, sf.field)))

/-- Lower-case hexadecimal digit. -/
def hexDigit (n : Nat) : Char :=
  if n < 10 then Char.ofNat ('0'.toNat + n) else Char.ofNat ('a'.toNat + (n - 10))

/-- The encoder's rendering of one character inside a string, HTML escaping
on (the default of `json.Marshal`). -/
def escapeChar (c : Char) : List Char :=
  if c = '"' then ['\\', '"']
  else if c = '\\' then ['\\', '\\']
  else if c = Char.ofNat 8 then ['\\', 'b']
  else if c = Char.ofNat 12 then ['\\', 'f']
  else if c = '\n' then ['\\', 'n']
  else if c = '\r' then ['\\', 'r']
  else if c = '\t' then ['\\', 't']
  else if c.toNat < 0x20 ∨ c = '<' ∨ c = '>' ∨ c = '&' then
    ['\\', 'u', '0', '0', hexDigit (c.toNat / 16), hexDigit (c.toNat % 16)]
  else if c = Char.ofNat 0x2028 then ['\\', 'u', '2', '0', '2', '8']
  else if c = Char.ofNat 0x2029 then ['\\', 'u', '2', '0', '2', '9']
  else [c]

/-- A string as a JSON string literal. -/
def encodeString (s : String) : List Char :=
  '"' :: (s.data.flatMap escapeChar ++ ['"'])

/-- Join pieces of text with commas. -/
def joinComma : List (List Char) → List Char
  | [] => []
  | [x] => x
  | x :: y :: rest => x ++ ',' :: joinComma (y :: rest)

/-- One record as a JSON object: its keys in field order, each with the
field as a string. -/
def encodeTrainInfo (t : TrainInfo) : List Char :=
  '{' :: (joinComma (trainInfoKeys.map
    (fun kf => encodeString kf.1 ++ ':' :: encodeString (t.get kf.2))) ++ ['}'])

/-- The failures of `json.Marshal`.  No value of type `[]TrainInfo` has one. -/
structure MarshalError where
  msg : String
  deriving DecidableEq

/-- Go `json.Marshal` on a `[]TrainInfo`: `null` for the nil slice, otherwise
the array of the records. -/
def Marshal (ts : List TrainInfo) : String × Option MarshalError :=
  match ts with
  | [] => ("null", none)
  | _ :: _ => (String.mk ('[' :: (joinComma (ts.map encodeTrainInfo) ++ [']'])), none)

/-- The simple case folding of a character of a key, as far as it can reach an
ASCII letter: ASCII letters fold to upper case, the long s to `S`, the
Kelvin sign to `K`. -/
def foldChar (c : Char) : Char :=
  if 'a' ≤ c ∧ c ≤ 'z' then Char.ofNat (c.toNat - 32)
  else if c = Char.ofNat 0x17F then 'S'
  else if c = Char.ofNat 0x212A then 'K'
  else c

/-- Go `foldName`, to compare a key with a field name whatever the case. -/
def foldName (s : List Char) : List Char := s.map foldChar

/-- The field an object key is stored to: the one whose JSON key is the key
exactly, or else the first whose JSON key equals it under case folding. -/
def findField (key : List Char) : Option Field :=
  match trainInfoKeys.find? (fun kf => kf.1.data = key) with
  | some kf => some kf.2
  | none => (trainInfoKeys.find? (fun kf => foldName kf.1.data = foldName key)).map (·.2)

/-- Why `Decode` failed. -/
inductive DecodeError where
  /-- The body holds no value at all (`io.EOF`). -/
  | eof
  /-- The body does not start with a well-formed value (`SyntaxError`, or
  `io.ErrUnexpectedEOF` for a value cut short). -/
  | malformed
  /-- A value of the wrong JSON type for its destination
  (`UnmarshalTypeError`). -/
  | unmarshalType
  deriving DecidableEq

/-- Store one object member into the record.  A string is stored in the field
its key names, `null` leaves the field as it is, any other value is a type
error (the first one is kept and decoding goes on), a key that names no
field is skipped. -/
def storeMember (acc : TrainInfo × Option DecodeError) (m : List Char × Value) :
    TrainInfo × Option DecodeError :=
  match findField m.1 with
  | none => acc
  | some f =>
    match m.2 with
    | .string s => (acc.1.set f (String.mk s), acc.2)
    | .null => acc
    | _ => (acc.1, acc.2 <|> some .unmarshalType)

/-- Unmarshal a value into a `TrainInfo`: an object member by member, `null`
as no change, anything else as a type error. -/
def unmarshal (v : Value) (t : TrainInfo) : TrainInfo × Option DecodeError :=
  match v with
  | .object members => members.foldl storeMember (t, none)
  | .null => (t, none)
  | _ => (t, some .unmarshalType)

/-- Go `json.NewDecoder(body).Decode(&t)`: reads the first JSON value of the
body and unmarshals it into `t`.  What follows that value in the body is
left unread. -/
def Decode (body : String) (t : TrainInfo) : TrainInfo × Option DecodeError :=
  match skipSpace body.data with
  | [] => (t, some .eof)
  | _ :: _ =>
    match readValue body with
    | none => (t, some .malformed)
    | some (v, _) => unmarshal v t

end json

/-! ## The store: table `train_trip` -/

/-- The nine text columns of `train_trip`, under the names the `INSERT` and
`UPDATE` statements give them (the `SELECT` writes the same names in lower
case; SQL column names do not depend on case). -/
inductive Column where
  | trip_Id
  | train_No
  | train_Type_Name_Th
  | origin_Station_No
  | dest_Station_No
  | trip_Date
  | origin_Time
  | dest_Time
  | total_Distance
  deriving DecidableEq

/-- Modelled from the spec: the table definition is not part of the source.  A
row of `train_trip` holds the nine trip attributes as text, and the two
server-managed timestamps `create_date` and `update_date` (instants, as
natural numbers). -/
structure Row where
  trip_Id : String
  train_No : String
  train_Type_Name_Th : String
  origin_Station_No : String
  dest_Station_No : String
  trip_Date : String
  origin_Time : String
  dest_Time : String
  total_Distance : String
  create_date : Nat
  update_date : Nat
  deriving DecidableEq

/-- The value of a text column of a row. -/
def Row.get (r : Row) : Column → String
  | .trip_Id => r.trip_Id
  | .train_No => r.train_No
  | .train_Type_Name_Th => r.train_Type_Name_Th
  | .origin_Station_No => r.origin_Station_No
  | .dest_Station_No => r.dest_Station_No
  | .trip_Date => r.trip_Date
  | .origin_Time => r.origin_Time
  | .dest_Time => r.dest_Time
  | .total_Distance => r.total_Distance

/-- Assign a text column of a row. -/
def Row.set (r : Row) (c : Column) (s : String) : Row :=
  match c with
  | .trip_Id => { r with trip_Id := s }
  | .train_No => { r with train_No := s }
  | .train_Type_Name_Th => { r with train_Type_Name_Th := s }
  | .origin_Station_No => { r with origin_Station_No := s }
  | .dest_Station_No => { r with dest_Station_No := s }
  | .trip_Date => { r with trip_Date := s }
  | .origin_Time => { r with origin_Time := s }
  | .dest_Time => { r with dest_Time := s }
  | .total_Distance => { r with total_Distance := s }

/-- Assign columns from a column list and the values bound to it, position by
position, as `INSERT (c1, c2, ...) VALUES (?, ?, ...)` and
`SET c1 = ?, c2 = ?, ...` do. -/
def Row.assign (r : Row) : List Column → List String → Row
  | c :: cs, v :: vs => (r.set c v).assign cs vs
  | _, _ => r

/-- An error returned by the SQL driver. -/
structure DbError where
  msg : String
  deriving DecidableEq

/-- A statement as the program sends it to the driver: its column list and the
values bound to its placeholders. -/
inductive Statement where
  /-- The statement `SELECT columns FROM train_trip`, with `WHERE trip_id = ?`
  when a filter is bound. -/
  | select (columns : List Column) (filter : Option String)
  /-- The statement
  `INSERT INTO train_trip (columns, create_date, update_date) VALUES (...)`. -/
  | insert (columns : List Column) (args : List String) (create_date update_date : Nat)
  /-- The statement
  `UPDATE train_trip SET columns = ..., update_date = ? WHERE trip_Id = ?`. -/
  | update (columns : List Column) (args : List String) (update_date : Nat) (key : String)
  deriving DecidableEq

/-- The global `Db`: the rows of `train_trip`, in the order the store returns
them, and the statements sent through the handle so far. -/
structure DB where
  rows : List Row
  log : List Statement
  deriving DecidableEq

/-- Note a statement as sent. -/
def DB.sent (db : DB) (s : Statement) : DB := { db with log := db.log ++ [s] }

/-- Modelled from the spec: the SQL engine is not part of the source.  The
result set of the `SELECT`: for every row (all of them without a filter, those
whose `trip_Id` is the filter with one) the values of the listed columns. -/
def sqlSelect (rows : List Row) (columns : List Column) (filter : Option String) :
    List (List String) :=
  match filter with
  | none => rows.map (fun r => columns.map r.get)
  | some id => (rows.filter (fun r => r.trip_Id = id)).map (fun r => columns.map r.get)

/-- Modelled from the spec: the SQL engine is not part of the source.  The
`INSERT`: `trip_Id` is the unique key of the table, so a row whose key is
already present is refused with a duplicate-key error; otherwise the new row
is added at the end. -/
def sqlInsert (rows : List Row) (columns : List Column) (args : List String)
    (create_date update_date : Nat) : List Row × Option DbError :=
  let row := (Row.mk "" "" "" "" "" "" "" "" "" create_date update_date).assign columns args
  if rows.any (fun r => r.trip_Id = row.trip_Id) then
    (rows, some ⟨"Error 1062: Duplicate entry for key PRIMARY"⟩)
  else (rows ++ [row], none)

/-- The row the `SET` list of an `UPDATE` makes of a row: the listed columns
and `update_date` assigned, the other columns as they were. -/
def sqlSet (r : Row) (columns : List Column) (args : List String) (update_date : Nat) :
    Row :=
  { r.assign columns args with update_date := update_date }

/-- Modelled from the spec: the SQL engine is not part of the source.  The
`UPDATE`: every row whose `trip_Id` is the key gets the listed columns and
`update_date` assigned.  The count of affected rows is the one the driver
reports for the connection string of main.go 306, which does not ask for
`clientFoundRows`: the number of rows the statement changed, that is, the
rows of the key that the assignment does not leave exactly as they were. -/
def sqlUpdate (rows : List Row) (columns : List Column) (args : List String)
    (update_date : Nat) (key : String) : List Row × Int :=
  (rows.map (fun r =>
      if r.trip_Id = key then sqlSet r columns args update_date else r),
    ((rows.filter (fun r =>
        decide (r.trip_Id = key) && decide (sqlSet r columns args update_date ≠ r))).length
      : Int))

/-- What lies outside the program during one data-access call: the clock, and
the failures the driver may report (lost connection, the three-second
deadline of the call's context, a value that cannot be scanned). -/
structure Env where
  /-- The instant `time.Now()` gives, at the resolution the timestamp columns
  store. -/
  now : Nat
  /-- The error of `Db.QueryContext` / `Db.ExecContext`, if any; the statement
  then has no effect. -/
  execErr : Option DbError
  /-- The row number at which `rows.Scan` fails, and its error, if any. -/
  scanErr : Option (Nat × DbError)
  /-- The error of `rows.Err()` after the loop, if any. -/
  rowsErr : Option DbError
  /-- The result of `result.LastInsertId()`: the identifier the store generated
  for the statement, and an error if the driver has none to give. -/
  lastInsertId : Int × Option DbError
  /-- The error of `result.RowsAffected()`, if any. -/
  rowsAffectedErr : Option DbError
  deriving DecidableEq

/-- The driver reports no failure during the call. -/
def Env.healthy (env : Env) : Prop :=
  env.execErr = none ∧ env.scanErr = none ∧ env.rowsErr = none ∧
    env.lastInsertId.2 = none ∧ env.rowsAffectedErr = none

instance (env : Env) : Decidable env.healthy := by
  unfold Env.healthy; infer_instance

/-- The failure of `rows.Scan` at row number `i`, if one is due there. -/
def Env.scanFault (env : Env) (i : Nat) : Option DbError :=
  match env.scanErr with
  | some (k, e) => if k = i then some e else none
  | none => none

/-! ## `main.go` : data access -/

/-- The constant `basePath` (main.go 31). -/
def basePath : String := "/api"

/-- The constant `trainPath` (main.go 32). -/
def trainPath : String := "train"

/-- Column list of the `SELECT` of `getTrainTrip` (main.go 43-44, 49-50). -/
def selectColumns : List Column :=
  [.trip_Id, .train_No, .train_Type_Name_Th, .origin_Station_No,
   .dest_Station_No, .trip_Date, .origin_Time, .dest_Time, .total_Distance]

/-- Destinations of `rows.Scan` in `getTrainTrip` (main.go 67-75). -/
def scanDests : List Field :=
  [.TripID, .TrainNo, .TrainTypeNameTh, .OriginStationNo,
   .DestStationNo, .TripDate, .OriginTime, .DestTime, .TotalDistance]

/-- Go `rows.Scan(dest...)`: the values of the current row go to the
destinations position by position; a different number of values and
destinations is an error. -/
def Scan : List Field → List String → TrainInfo → Option TrainInfo
  | [], [], t => some t
  | d :: ds, v :: vs, t => Scan ds vs (t.set d v)
  | _, _, _ => none

/-- The loop `for rows.Next()` of `getTrainTrip` (main.go 64-82), at row number
`i` with `trainTrips` collected so far.  On a scan error the function returns
`nil` and the error. -/
def scanLoop (env : Env) : Nat → List (List String) → List TrainInfo →
    List TrainInfo × Option DbError
  | _, [], trainTrips => (trainTrips, none)
  | i, vals :: rest, trainTrips =>
    match env.scanFault i with
    | some e => ([], some e)
    | none =>
      match Scan scanDests vals TrainInfo.zero with
      | none => ([], some ⟨"sql: wrong number of destination arguments in Scan"⟩)
      | some traininfo => scanLoop env (i + 1) rest (trainTrips ++ [traininfo])

/-- The function `getTrainTrip` (main.go 34-90). -/
def getTrainTrip (env : Env) (db : DB) (trip_id : String) :
    (List TrainInfo × Option DbError) × DB :=
  let filter : Option String := if trip_id = "" then none else some trip_id
  let db1 := db.sent (.select selectColumns filter)
  match env.execErr with
  | some err => (([], some err), db1)
  | none =>
    let res := scanLoop env 0 (sqlSelect db.rows selectColumns filter) []
    match res.2 with
    | some err => (([], some err), db1)
    | none =>
      match env.rowsErr with
      | some err => (([], some err), db1)
      | none => ((res.1, none), db1)

/-- Column list of the `INSERT` of `insertTrain` (main.go 207-215). -/
def insertColumns : List Column :=
  [.trip_Id, .train_No, .train_Type_Name_Th, .origin_Station_No,
   .dest_Station_No, .trip_Date, .origin_Time, .dest_Time, .total_Distance]

/-- Values bound to the `INSERT` (main.go 220-228). -/
def insertArgs (traininfo : TrainInfo) : List String :=
  [traininfo.TripID, traininfo.TrainNo, traininfo.TrainTypeNameTh,
   traininfo.OriginStationNo, traininfo.DestStationNo, traininfo.TripDate,
   traininfo.OriginTime, traininfo.DestTime, traininfo.TotalDistance]

/-- The function `insertTrain` (main.go 201-242).  The conversion
`int(insertTripID)` is the identity (`int` has 64 bits). -/
def insertTrain (env : Env) (db : DB) (traininfo : TrainInfo) :
    (Int × Option DbError) × DB :=
  let now := env.now
  let db1 := db.sent (.insert insertColumns (insertArgs traininfo) now now)
  match env.execErr with
  | some err => ((0, some err), db1)
  | none =>
    let res := sqlInsert db.rows insertColumns (insertArgs traininfo) now now
    match res.2 with
    | some err => ((0, some err), db1)
    | none =>
      let db2 : DB := { db1 with rows := res.1 }
      match env.lastInsertId.2 with
      | some err => ((0, some err), db2)
      | none => ((env.lastInsertId.1, none), db2)

/-- Columns set by the `UPDATE` of `updateTrain` (main.go 252-259). -/
def updateColumns : List Column :=
  [.train_No, .train_Type_Name_Th, .origin_Station_No, .dest_Station_No,
   .trip_Date, .origin_Time, .dest_Time, .total_Distance]

/-- Values bound to the `SET` list of the `UPDATE` (main.go 262-269). -/
def updateArgs (traininfo : TrainInfo) : List String :=
  [traininfo.TrainNo, traininfo.TrainTypeNameTh, traininfo.OriginStationNo,
   traininfo.DestStationNo, traininfo.TripDate, traininfo.OriginTime,
   traininfo.DestTime, traininfo.TotalDistance]

/-- The function `updateTrain` (main.go 244-285).  The count is what
`result.RowsAffected()` gives: the rows the statement changed. -/
def updateTrain (env : Env) (db : DB) (traininfo : TrainInfo) :
    (Int × Option DbError) × DB :=
  let now := env.now
  let db1 := db.sent (.update updateColumns (updateArgs traininfo) now traininfo.TripID)
  match env.execErr with
  | some err => ((0, some err), db1)
  | none =>
    let res := sqlUpdate db.rows updateColumns (updateArgs traininfo) now traininfo.TripID
    let db2 : DB := { db1 with rows := res.1 }
    match env.rowsAffectedErr with
    | some err => ((0, some err), db2)
    | none => ((res.2, none), db2)

/-! ## `net/http` -/

namespace http

/-- Go `http.MethodGet`. -/
def MethodGet : String := "GET"
/-- Go `http.MethodPost`. -/
def MethodPost : String := "POST"
/-- Go `http.MethodPut`. -/
def MethodPut : String := "PUT"
/-- Go `http.MethodOptions`. -/
def MethodOptions : String := "OPTIONS"

/-- Go `http.StatusOK`. -/
def StatusOK : Nat := 200
/-- Go `http.StatusCreated`. -/
def StatusCreated : Nat := 201
/-- Go `http.StatusBadRequest`. -/
def StatusBadRequest : Nat := 400
/-- Go `http.StatusNotFound`. -/
def StatusNotFound : Nat := 404
/-- Go `http.StatusMethodNotAllowed`. -/
def StatusMethodNotAllowed : Nat := 405
/-- Go `http.StatusInternalServerError`. -/
def StatusInternalServerError : Nat := 500

/-- Go `http.Header`: keys with their lists of values.  The header names of
this program are written in canonical form already. -/
abbrev Header := List (String × List String)

/-- Go `Header.Get`: the first value of the key, or the empty string. -/
def Header.Get : Header → String → String
  | [], _ => ""
  | (k, vs) :: rest, key => if k = key then vs.headD "" else Header.Get rest key

/-- Go `Header.Set`: the key gets the single value. -/
def Header.Set : Header → String → String → Header
  | [], key, v => [(key, [v])]
  | (k, vs) :: rest, key, v =>
    if k = key then (k, [v]) :: rest else (k, vs) :: Header.Set rest key v

/-- Go `Header.Add`: the value is appended to those of the key. -/
def Header.Add : Header → String → String → Header
  | [], key, v => [(key, [v])]
  | (k, vs) :: rest, key, v =>
    if k = key then (k, vs ++ [v]) :: rest else (k, vs) :: Header.Add rest key v

/-- Go `url.Values`, the parsed query string: keys with their lists of
values. -/
abbrev Values := List (String × List String)

/-- Go `Values.Get`: the first value of the key, or the empty string. -/
def Values.Get : Values → String → String
  | [], _ => ""
  | (k, vs) :: rest, key => if k = key then vs.headD "" else Values.Get rest key

/-- The parts of `*http.Request` the handlers read: `r.Method`, `r.URL.Path`,
`r.URL.Query()` and `r.Body`. -/
structure Request where
  Method : String
  Path : String
  Query : Values
  Body : String
  deriving DecidableEq

/-- Go `http.ResponseWriter`: the header map the handler edits, and what has
gone out: once the status line is written the header is fixed. -/
structure ResponseWriter where
  header : Header
  wroteHeader : Bool
  status : Nat
  sentHeader : Header
  body : String
  deriving DecidableEq

/-- The writer a handler is given for a new request. -/
def ResponseWriter.new : ResponseWriter := ⟨[], false, 0, [], ""⟩

/-- Go `w.WriteHeader(code)`; a second call changes nothing. -/
def ResponseWriter.WriteHeader (w : ResponseWriter) (code : Nat) : ResponseWriter :=
  if w.wroteHeader then w
  else { w with wroteHeader := true, status := code, sentHeader := w.header }

/-- Go `w.Write(b)`: writes the status line with 200 first if none was
written. -/
def ResponseWriter.Write (w : ResponseWriter) (b : String) : ResponseWriter :=
  let w1 := w.WriteHeader StatusOK
  { w1 with body := w1.body ++ b }

/-- Go `w.Header().Set(k, v)`. -/
def ResponseWriter.HeaderSet (w : ResponseWriter) (k v : String) : ResponseWriter :=
  { w with header := w.header.Set k v }

/-- Go `w.Header().Add(k, v)`. -/
def ResponseWriter.HeaderAdd (w : ResponseWriter) (k v : String) : ResponseWriter :=
  { w with header := w.header.Add k v }

/-- The response a client receives. -/
structure Response where
  status : Nat
  header : Header
  body : String
  deriving DecidableEq

/-- What the server sends when the handler has returned: a handler that wrote
no status line gets 200. -/
def ResponseWriter.finish (w : ResponseWriter) : Response :=
  let w1 := w.WriteHeader StatusOK
  ⟨w1.status, w1.sentHeader, w1.body⟩

end http

open http

/-- A request handler, with the driver behaviour and the global `Db` it runs
against made explicit. -/
abbrev Handler := Env → ResponseWriter → Request → DB → ResponseWriter × DB

/-- Run a handler on a request and give the response sent and the store left
behind. -/
def serve (h : Handler) (env : Env) (r : Request) (db : DB) : Response × DB :=
  ((h env ResponseWriter.new r db).1.finish, (h env ResponseWriter.new r db).2)

/-! ## `main.go` : handlers -/

/-- Body of the 404 answer of `PUT` (main.go 144). -/
def msgNotFound : String := "\x7b\"message\":\"ไม่พบขบวนรถไฟที่ต้องการแก้ไขข้อมูล\"\x7d"

/-- Body of the 200 answer of `PUT` (main.go 149). -/
def msgUpdated : String := "\x7b\"message\":\"อัพเดตขบวนรถไฟสำเร็จ\"\x7d"

/-- Go `fmt.Sprintf` with the format of main.go 124 and a decimal `%d`. -/
def sprintfTripId (Train_ID : Int) : String :=
  "\x7b\"trip_id\":" ++ toString Train_ID ++ "\x7d"

/-- The function `handleTrains` (main.go 92-157).  The calls of `log` leave no
trace in the response or the store and are left out. -/
def handleTrains : Handler := fun env w r db =>
  if r.Method = MethodGet then
    let tripID := r.Query.Get "trip_id"
    let got := getTrainTrip env db tripID
    match got.1.2 with
    | some _ => (w.WriteHeader StatusInternalServerError, got.2)
    | none =>
      let j := json.Marshal got.1.1
      match j.2 with
      | some _ => (w.WriteHeader StatusInternalServerError, got.2)
      | none => ((w.HeaderSet "Content-Type" "application/json").Write j.1, got.2)
  else if r.Method = MethodPost then
    let dec := json.Decode r.Body TrainInfo.zero
    match dec.2 with
    | some _ => (w.WriteHeader StatusBadRequest, db)
    | none =>
      let ins := insertTrain env db dec.1
      match ins.1.2 with
      | some _ => (w.WriteHeader StatusBadRequest, ins.2)
      | none => ((w.WriteHeader StatusCreated).Write (sprintfTripId ins.1.1), ins.2)
  else if r.Method = MethodPut then
    let dec := json.Decode r.Body TrainInfo.zero
    match dec.2 with
    | some _ => (w.WriteHeader StatusBadRequest, db)
    | none =>
      let upd := updateTrain env db dec.1
      match upd.1.2 with
      | some _ => (w.WriteHeader StatusInternalServerError, upd.2)
      | none =>
        if upd.1.1 = 0 then ((w.WriteHeader StatusNotFound).Write msgNotFound, upd.2)
        else ((w.WriteHeader StatusOK).Write msgUpdated, upd.2)
  else if r.Method = MethodOptions then (w, db)
  else (w.WriteHeader StatusMethodNotAllowed, db)

/-- The function `handleTrainTrip` (main.go 159-199).  Writing to the response
does not fail here (main.go 192-194 ends the process when it does). -/
def handleTrainTrip : Handler := fun env w r db =>
  let urlPathSegments := strings.Split r.Path (trainPath ++ "/")
  if urlPathSegments.tail.length > 1 then (w.WriteHeader StatusBadRequest, db)
  else
    let tripID := urlPathSegments.getLastD ""
    if tripID = "" then (w.WriteHeader StatusBadRequest, db)
    else if r.Method = MethodGet then
      let got := getTrainTrip env db tripID
      match got.1.2 with
      | some _ => (w.WriteHeader StatusInternalServerError, got.2)
      | none =>
        if got.1.1 = [] then (w.WriteHeader StatusNotFound, got.2)
        else
          let j := json.Marshal got.1.1
          match j.2 with
          | some _ => (w.WriteHeader StatusBadRequest, got.2)
          | none => (w.Write j.1, got.2)
    else (w.WriteHeader StatusMethodNotAllowed, db)

/-- The function `corsMiddleware` (main.go 287-295). -/
def corsMiddleware (handler : Handler) : Handler := fun env w r db =>
  let w1 := w.HeaderAdd "Access-Control-Allow-Origin" "*"
  let w2 := w1.HeaderAdd "Content-Type" "application/json"
  let w3 := w2.HeaderSet "Access-Control-Allow-Methods" "POST, GET, OPTIONS, PUT"
  let w4 := w3.HeaderSet "Access-Control-Allow-Headers"
    "Accept, Content-Type, Content-Length, Authorization, X-Custom-Header, x-requested-with"
  handler env w4 r db

/-! ## Vocabulary of the statements -/

/-- The record a row is scanned to. -/
def Row.toTrainInfo (r : Row) : TrainInfo :=
  ⟨r.trip_Id, r.train_No, r.train_Type_Name_Th, r.origin_Station_No, r.dest_Station_No,
   r.trip_Date, r.origin_Time, r.dest_Time, r.total_Distance⟩

/-- The row that holds a record, with the two timestamps given. -/
def Row.ofTrainInfo (t : TrainInfo) (create_date update_date : Nat) : Row :=
  ⟨t.TripID, t.TrainNo, t.TrainTypeNameTh, t.OriginStationNo, t.DestStationNo,
   t.TripDate, t.OriginTime, t.DestTime, t.TotalDistance, create_date, update_date⟩

/-- The rows a fetch is about: all of them for the empty identifier, those
whose identifier is `trip_id` otherwise. -/
def selected (rows : List Row) (trip_id : String) : List Row :=
  if trip_id = "" then rows else rows.filter (fun r => r.trip_Id = trip_id)

/-- The eight attributes other than the identifier agree. -/
def TrainInfo.sameData (a b : TrainInfo) : Prop :=
  a.TrainNo = b.TrainNo ∧ a.TrainTypeNameTh = b.TrainTypeNameTh ∧
  a.OriginStationNo = b.OriginStationNo ∧ a.DestStationNo = b.DestStationNo ∧
  a.TripDate = b.TripDate ∧ a.OriginTime = b.OriginTime ∧ a.DestTime = b.DestTime ∧
  a.TotalDistance = b.TotalDistance

instance (a b : TrainInfo) : Decidable (a.sameData b) := by
  unfold TrainInfo.sameData; infer_instance

/-- How a row `new` relates to the row `old` it was before an update with
record `t` at time `now`: a row of another identifier is the same row; a row
of the identifier of `t` keeps its identifier and creation time, has `now` as
update time and the eight other attributes of `t`. -/
def updatedRow (t : TrainInfo) (now : Nat) (old new : Row) : Prop :=
  (old.trip_Id ≠ t.TripID → new = old) ∧
  (old.trip_Id = t.TripID →
    new.trip_Id = old.trip_Id ∧ new.create_date = old.create_date ∧
    new.update_date = now ∧ new.toTrainInfo.sameData t)

instance (t : TrainInfo) (now : Nat) (old new : Row) : Decidable (updatedRow t now old new) := by
  unfold updatedRow; infer_instance

/-- The header of a response that only `corsMiddleware` has touched. -/
def corsHeader : Header :=
  [ ("Access-Control-Allow-Origin", ["*"]),
    ("Content-Type", ["application/json"]),
    ("Access-Control-Allow-Methods", ["POST, GET, OPTIONS, PUT"]),
    ("Access-Control-Allow-Headers",
      ["Accept, Content-Type, Content-Length, Authorization, X-Custom-Header, x-requested-with"]) ]

/-! ## Concrete requests and stores for the closed statements -/

/-- A driver call during which nothing fails, at time `now`, the store
generating identifier `id`. -/
def Env.quiet (now : Nat) (id : Int) : Env := ⟨now, none, none, none, (id, none), none⟩

/-- A driver call that fails at once: the statement is not executed and the
call returns the error of an expired deadline. -/
def Env.down (now : Nat) : Env :=
  ⟨now, some ⟨"context deadline exceeded"⟩, none, none, (0, none), none⟩

/-- The trip of the example request of the API description. -/
def tripT1 : TrainInfo :=
  ⟨"T1", "101", "ด่วน", "A", "B", "2024-01-01", "08:00", "10:00", "150"⟩

/-- The body of the example `POST` of the API description, with the keys
`trip_Id`, `train_No` and so on. -/
def bodyT1 : String :=
  "\x7b\"trip_Id\":\"T1\",\"train_No\":\"101\",\"train_Type_Name_Th\":\"ด่วน\",\"origin_Station_No\":\"A\",\"dest_Station_No\":\"B\",\"trip_Date\":\"2024-01-01\",\"origin_Time\":\"08:00\",\"dest_Time\":\"10:00\",\"total_Distance\":\"150\"\x7d"

/-- The text `json.Marshal` gives for the one-element slice of `tripT1`. -/
def marshalledT1 : String :=
  "[\x7b\"TripID\":\"T1\",\"TrainNo\":\"101\",\"TrainTypeNameTh\":\"ด่วน\",\"OriginStationNo\":\"A\",\"DestStationNo\":\"B\",\"TripDate\":\"2024-01-01\",\"OriginTime\":\"08:00\",\"DestTime\":\"10:00\",\"TotalDistance\":\"150\"\x7d]"

/-- The stored row of trip `T1`, created and last updated at time 5. -/
def rowT1 : Row := ⟨"T1", "101", "ด่วน", "A", "B", "2024-01-01", "08:00", "10:00", "150", 5, 5⟩

/-- A store without rows and without history. -/
def DB.empty : DB := ⟨[], []⟩

/-- A store whose only row is trip `T1`. -/
def dbT1 : DB := ⟨[rowT1], []⟩

/-- A second trip, not in `dbT1`. -/
def tripT2 : TrainInfo :=
  ⟨"T2", "202", "เร็ว", "C", "D", "2024-02-02", "09:30", "12:45", "320"⟩

/-- A trip whose identifier is the empty string. -/
def tripNoId : TrainInfo :=
  ⟨"", "303", "ธรรมดา", "E", "F", "2024-03-03", "06:00", "07:00", "60"⟩

/-- New data for trip `T1`. -/
def tripT1new : TrainInfo :=
  ⟨"T1", "111", "ด่วนพิเศษ", "A", "Z", "2024-01-02", "18:00", "23:00", "750"⟩

/-- A body with the data of `tripT1new` under the Go field names. -/
def bodyT1new : String :=
  "\x7b\"TripID\":\"T1\",\"TrainNo\":\"111\",\"TrainTypeNameTh\":\"ด่วนพิเศษ\",\"OriginStationNo\":\"A\",\"DestStationNo\":\"Z\",\"TripDate\":\"2024-01-02\",\"OriginTime\":\"18:00\",\"DestTime\":\"23:00\",\"TotalDistance\":\"750\"\x7d"

/-- A body with the data of `tripT2` under the Go field names. -/
def bodyT2 : String :=
  "\x7b\"TripID\":\"T2\",\"TrainNo\":\"202\",\"TrainTypeNameTh\":\"เร็ว\",\"OriginStationNo\":\"C\",\"DestStationNo\":\"D\",\"TripDate\":\"2024-02-02\",\"OriginTime\":\"09:30\",\"DestTime\":\"12:45\",\"TotalDistance\":\"320\"\x7d"

/-- A body that starts with a well-formed JSON value, the empty object, and
goes on with other text. -/
def bodyTrailing : String := "\x7b\x7dx"

set_option maxRecDepth 100000

/-! # Theorems -/

/-! ## The JSON reader: the bound on nesting is enough -/

namespace json

/-- Skipping white space does not lengthen the text. -/
theorem skipSpace_length (cs : List Char) : (skipSpace cs).length ≤ cs.length := by
  induction cs with
  | nil => simp [skipSpace]
  | cons c cs ih =>
    simp only [skipSpace]
    split
    · exact Nat.le_succ_of_le ih
    · exact le_refl _

theorem emit_length (out : List Char) (r : Option (List Char × List Char)) (n : Nat)
    (h : ∀ p, r = some p → p.2.length ≤ n) :
    ∀ p, emit out r = some p → p.2.length ≤ n := by
  intro p hp
  cases r with
  | none => simp [emit] at hp
  | some q =>
    simp only [emit, Option.map_some', Option.some.injEq] at hp
    subst hp
    exact h q rfl

/-- What follows a string literal is no longer than the text the scan began
with. -/
theorem unquoteTail_length : ∀ (cs : List Char) (pending : Option Nat) (p : List Char × List Char),
    unquoteTail pending cs = some p → p.2.length ≤ cs.length := by
  intro cs
  induction cs using Nat.strongRecMeasure List.length with
  | ind cs ih =>
    intro pending p hp
    unfold unquoteTail at hp
    split at hp
    · simp at hp
    · simp only [Option.some.injEq] at hp; subst hp; simp
    · rename_i a b c d rest
      have hrec : ∀ pend q, unquoteTail pend rest = some q →
          q.2.length ≤ ('\\' :: 'u' :: a :: b :: c :: d :: rest).length := by
        intro pend q hq
        have := ih rest (by simp only [List.length_cons]; omega) pend q hq
        simp only [List.length_cons]; omega
      split at hp
      · simp at hp
      · split at hp
        · split_ifs at hp
          · exact emit_length _ _ _ (hrec _) p hp
          · exact emit_length _ _ _ (hrec _) p hp
          · exact emit_length _ _ _ (hrec _) p hp
        · split_ifs at hp
          · exact hrec _ p hp
          · exact emit_length _ _ _ (hrec _) p hp
          · exact emit_length _ _ _ (hrec _) p hp
    · rename_i e rest _
      have hrec : ∀ pend q, unquoteTail pend rest = some q →
          q.2.length ≤ ('\\' :: e :: rest).length := by
        intro pend q hq
        have := ih rest (by simp only [List.length_cons]; omega) pend q hq
        simp only [List.length_cons]; omega
      simp only [] at hp
      split_ifs at hp <;> exact emit_length _ _ _ (hrec _) p hp
    · rename_i c rest _ _ _
      have hrec : ∀ pend q, unquoteTail pend rest = some q →
          q.2.length ≤ (c :: rest).length := by
        intro pend q hq
        have := ih rest (by simp only [List.length_cons]; omega) pend q hq
        simp only [List.length_cons]; omega
      split_ifs at hp
      exact emit_length _ _ _ (hrec _) p hp

theorem spanDigits_length (cs : List Char) : (spanDigits cs).2.length ≤ cs.length := by
  induction cs with
  | nil => simp [spanDigits]
  | cons c cs ih =>
    simp only [spanDigits]
    split
    · exact Nat.le_succ_of_le ih
    · exact le_refl _

theorem scanInt_length (cs : List Char) (p : List Char × List Char)
    (h : scanInt cs = some p) : p.2.length ≤ cs.length := by
  unfold scanInt at h
  split at h
  · simp only [Option.some.injEq] at h; subst h; simp
  · split_ifs at h
    simp only [Option.some.injEq] at h; subst h
    exact Nat.le_succ_of_le (spanDigits_length _)
  · simp at h

theorem scanFrac_length (cs : List Char) (p : List Char × List Char)
    (h : scanFrac cs = some p) : p.2.length ≤ cs.length := by
  unfold scanFrac at h
  split at h
  · rename_i rest
    have := spanDigits_length rest
    split at h
    · simp at h
    · rename_i ds rest' _ heq
      simp only [Option.some.injEq] at h; subst h
      rw [heq] at this
      exact Nat.le_succ_of_le this
  · simp only [Option.some.injEq] at h; subst h; exact le_refl _

theorem scanExpDigits_length (pre cs : List Char) (p : List Char × List Char)
    (h : scanExpDigits pre cs = some p) : p.2.length ≤ cs.length := by
  unfold scanExpDigits at h
  have := spanDigits_length cs
  split at h
  · simp at h
  · rename_i ds rest' _ heq
    simp only [Option.some.injEq] at h; subst h
    rw [heq] at this
    exact this

theorem scanExp_length (cs : List Char) (p : List Char × List Char)
    (h : scanExp cs = some p) : p.2.length ≤ cs.length := by
  unfold scanExp at h
  split at h
  all_goals first
    | exact le_trans (scanExpDigits_length _ _ _ h)
        (by simp only [List.length_cons]; omega)
    | (simp only [Option.some.injEq] at h; subst h; exact le_refl _)

theorem scanUnsigned_length (cs : List Char) (p : List Char × List Char)
    (h : scanUnsigned cs = some p) : p.2.length ≤ cs.length := by
  unfold scanUnsigned at h
  split at h
  · simp at h
  · rename_i i r1 h1
    split at h
    · simp at h
    · rename_i f r2 h2
      split at h
      · simp at h
      · rename_i e r3 h3
        simp only [Option.some.injEq] at h; subst h
        have := scanInt_length _ _ h1
        have := scanFrac_length _ _ h2
        have := scanExp_length _ _ h3
        simp only at *
        omega

/-- What follows a number is no longer than the text the scan began with. -/
theorem scanNumber_length (cs : List Char) (p : List Char × List Char)
    (h : scanNumber cs = some p) : p.2.length ≤ cs.length := by
  unfold scanNumber at h
  split at h
  · rename_i rest
    cases hu : scanUnsigned rest with
    | none => simp [hu] at h
    | some q =>
      simp only [hu, Option.map_some', Option.some.injEq] at h; subst h
      have := scanUnsigned_length _ _ hu
      simp only [List.length_cons]; omega
  · exact scanUnsigned_length _ _ h

theorem literal_length (lit : List Char) (v : Value) (cs : List Char) (p : Value × List Char)
    (h : literal lit v cs = some p) : p.2.length ≤ cs.length := by
  unfold literal at h
  split_ifs at h
  simp only [Option.some.injEq] at h; subst h
  simp

theorem map_some_length {α β : Type} (o : Option (α × List Char)) (f : α → β)
    (p : β × List Char) (k : Nat) (ho : ∀ q, o = some q → q.2.length ≤ k)
    (h : o.map (fun q => (f q.1, q.2)) = some p) : p.2.length ≤ k := by
  cases o with
  | none => simp at h
  | some q =>
    simp only [Option.map_some', Option.some.injEq] at h; subst h
    exact ho q rfl

/-- What the three readers leave unread is no longer than what they were
given. -/
theorem parse_length (n : Nat) :
    (∀ cs p, parseValue n cs = some p → p.2.length ≤ cs.length) ∧
    (∀ cs p, parseMembers n cs = some p → p.2.length ≤ cs.length) ∧
    (∀ cs p, parseElements n cs = some p → p.2.length ≤ cs.length) := by
  induction n with
  | zero =>
    refine ⟨?_, ?_, ?_⟩ <;> intro cs p h
    · simp [parseValue] at h
    · simp [parseMembers] at h
    · simp [parseElements] at h
  | succ n ih =>
    obtain ⟨ihV, ihM, ihE⟩ := ih
    refine ⟨?_, ?_, ?_⟩
    · intro cs p h
      have hsk := skipSpace_length cs
      rw [parseValue] at h
      split at h
      · simp at h
      · rename_i c rest heq
        rw [heq] at hsk
        simp only [List.length_cons] at hsk
        have hsk2 := skipSpace_length rest
        split_ifs at h
        · split at h
          · simp at h
          · rename_i d rest' heq2
            rw [heq2] at hsk2
            simp only [List.length_cons] at hsk2
            split_ifs at h
            · simp only [Option.some.injEq] at h; subst h
              simp only; omega
            · refine map_some_length _ _ p _ ?_ h
              intro q hq
              have := ihM _ _ hq
              simp only [List.length_cons] at this; omega
        · split at h
          · simp at h
          · rename_i d rest' heq2
            rw [heq2] at hsk2
            simp only [List.length_cons] at hsk2
            split_ifs at h
            · simp only [Option.some.injEq] at h; subst h
              simp only; omega
            · split at h
              · simp at h
              · rename_i v r1 hv
                have h1 := ihV _ _ hv
                simp only [List.length_cons] at h1
                refine map_some_length _ (fun l => Value.array (v :: l)) p _ ?_ h
                intro q hq
                have := ihE _ _ hq
                omega
        · refine map_some_length _ _ p _ ?_ h
          intro q hq
          have := unquoteTail_length _ _ _ hq
          omega
        · have := literal_length _ _ _ _ h; omega
        · have := literal_length _ _ _ _ h; omega
        · have := literal_length _ _ _ _ h; omega
        · refine map_some_length _ _ p _ ?_ h
          intro q hq
          have := scanNumber_length _ _ hq
          simp only [List.length_cons] at this; omega
    · intro cs p h
      have hsk := skipSpace_length cs
      rw [parseMembers] at h
      split at h
      · simp at h
      · rename_i c rest heq
        rw [heq] at hsk
        simp only [List.length_cons] at hsk
        split_ifs at h
        split at h
        · simp at h
        · rename_i key r1 hk
          have h1 := unquoteTail_length _ _ _ hk
          have hsk1 := skipSpace_length r1
          split at h
          · simp at h
          · rename_i c1 r2 heq2
            rw [heq2] at hsk1
            simp only [List.length_cons] at hsk1
            split_ifs at h
            split at h
            · simp at h
            · rename_i v r3 hv
              have h3 := ihV _ _ hv
              have hsk3 := skipSpace_length r3
              split at h
              · simp at h
              · rename_i c3 r4 heq4
                rw [heq4] at hsk3
                simp only [List.length_cons] at hsk3
                simp only at h1 h3
                split_ifs at h
                · refine map_some_length _ (fun l => (key, v) :: l) p _ ?_ h
                  intro q hq
                  have := ihM _ _ hq
                  omega
                · simp only [Option.some.injEq] at h; subst h
                  simp only; omega
    · intro cs p h
      have hsk := skipSpace_length cs
      rw [parseElements] at h
      split at h
      · simp at h
      · rename_i c r1 heq
        rw [heq] at hsk
        simp only [List.length_cons] at hsk
        split_ifs at h
        · split at h
          · simp at h
          · rename_i v r2 hv
            have h2 := ihV _ _ hv
            simp only at h2
            refine map_some_length _ (fun l => v :: l) p _ ?_ h
            intro q hq
            have := ihE _ _ hq
            omega
        · simp only [Option.some.injEq] at h; subst h
          simp only; omega

/-- With a bound above the length of the text, one more unit of bound changes
nothing. -/
theorem parse_fuel_succ (n : Nat) :
    ∀ cs : List Char, cs.length < n →
      parseValue n cs = parseValue (n + 1) cs ∧
      parseMembers n cs = parseMembers (n + 1) cs ∧
      parseElements n cs = parseElements (n + 1) cs := by
  induction n with
  | zero => intro cs h; exact absurd h (Nat.not_lt_zero _)
  | succ n ih =>
    intro cs hlen
    have hsk := skipSpace_length cs
    refine ⟨?_, ?_, ?_⟩
    · rw [parseValue, parseValue]
      split
      · rfl
      · rename_i c rest heq
        rw [heq] at hsk
        simp only [List.length_cons] at hsk
        have hsk2 := skipSpace_length rest
        split_ifs
        · split
          · rfl
          · rename_i d rest' heq2
            rw [heq2] at hsk2
            simp only [List.length_cons] at hsk2
            split_ifs
            · rfl
            · rw [(ih (d :: rest') (by simp only [List.length_cons]; omega)).2.1]
        · split
          · rfl
          · rename_i d rest' heq2
            rw [heq2] at hsk2
            simp only [List.length_cons] at hsk2
            split_ifs
            · rfl
            · rw [← (ih (d :: rest') (by simp only [List.length_cons]; omega)).1]
              split
              · rfl
              · rename_i v r1 hv
                have h1 := (parse_length n).1 _ _ hv
                simp only [List.length_cons] at h1
                rw [(ih r1 (by omega)).2.2]
        · rfl
        · rfl
        · rfl
        · rfl
        · rfl
    · rw [parseMembers, parseMembers]
      split
      · rfl
      · rename_i c rest heq
        rw [heq] at hsk
        simp only [List.length_cons] at hsk
        split_ifs
        · split
          · rfl
          · rename_i key r1 hk
            have h1 := unquoteTail_length _ _ _ hk
            have hsk1 := skipSpace_length r1
            simp only at h1
            split
            · rfl
            · rename_i c1 r2 heq2
              rw [heq2] at hsk1
              simp only [List.length_cons] at hsk1
              split_ifs
              · rw [← (ih r2 (by omega)).1]
                split
                · rfl
                · rename_i v r3 hv
                  have h3 := (parse_length n).1 _ _ hv
                  have hsk3 := skipSpace_length r3
                  simp only at h3
                  split
                  · rfl
                  · rename_i c3 r4 heq4
                    rw [heq4] at hsk3
                    simp only [List.length_cons] at hsk3
                    split_ifs
                    · rw [(ih r4 (by omega)).2.1]
                    · rfl
                    · rfl
              · rfl
        · rfl
    · rw [parseElements, parseElements]
      split
      · rfl
      · rename_i c r1 heq
        rw [heq] at hsk
        simp only [List.length_cons] at hsk
        split_ifs
        · rw [← (ih r1 (by omega)).1]
          split
          · rfl
          · rename_i v r2 hv
            have h2 := (parse_length n).1 _ _ hv
            simp only at h2
            rw [(ih r2 (by omega)).2.2]
        · rfl
        · rfl

/-- Fuel beyond the length of the text changes nothing: `parseValue` with any
bound above the length of the text is `parseValue` with the bound
`readValue` gives it. -/
theorem parseValue_fuel (cs : List Char) (k : Nat) :
    parseValue (cs.length + 1 + k) cs = parseValue (cs.length + 1) cs := by
  induction k with
  | zero => rfl
  | succ k ih =>
    rw [← ih, ← Nat.add_assoc]
    exact ((parse_fuel_succ (cs.length + 1 + k) cs (by omega)).1).symm

end json

/-! ## Data access -/

/-- Scanning the selected columns of a row into the destinations of
`getTrainTrip` gives the record of the row: the two lists are in the same
order. -/
theorem Scan_select (r : Row) :
    Scan scanDests (selectColumns.map r.get) TrainInfo.zero = some r.toTrainInfo := rfl

/-- A scan loop that ends without error has appended the records of all
rows. -/
theorem scanLoop_ok (env : Env) (rows : List Row) :
    ∀ (i : Nat) (acc : List TrainInfo),
      (scanLoop env i (rows.map (fun r => selectColumns.map r.get)) acc).2 = none →
      (scanLoop env i (rows.map (fun r => selectColumns.map r.get)) acc).1
        = acc ++ rows.map Row.toTrainInfo := by
  induction rows with
  | nil => intro i acc _; simp [scanLoop]
  | cons r rs ih =>
    intro i acc h
    simp only [List.map_cons, scanLoop] at h ⊢
    cases hf : env.scanFault i with
    | some e => simp [hf] at h
    | none =>
      simp only [hf, Scan_select] at h ⊢
      rw [ih _ _ h]
      simp

/-- Without a scan failure due, the scan loop ends without error. -/
theorem scanLoop_healthy (env : Env) (hs : env.scanErr = none) (rows : List Row) :
    ∀ (i : Nat) (acc : List TrainInfo),
      (scanLoop env i (rows.map (fun r => selectColumns.map r.get)) acc).2 = none := by
  induction rows with
  | nil => intro i acc; simp [scanLoop]
  | cons r rs ih =>
    intro i acc
    simp only [List.map_cons, scanLoop, Env.scanFault, hs, Scan_select]
    exact ih _ _

theorem sqlSelect_eq (rows : List Row) (trip_id : String) :
    sqlSelect rows selectColumns (if trip_id = "" then none else some trip_id)
      = (selected rows trip_id).map (fun r => selectColumns.map r.get) := by
  by_cases h : trip_id = "" <;> simp [selected, sqlSelect, h]

/-- The one effect of `getTrainTrip` on the store: the `SELECT` is noted as
sent. -/
theorem getTrainTrip_db (env : Env) (db : DB) (trip_id : String) :
    (getTrainTrip env db trip_id).2
      = db.sent (.select selectColumns (if trip_id = "" then none else some trip_id)) := by
  unfold getTrainTrip
  simp only []
  split
  · rfl
  · split
    · rfl
    · split <;> rfl

/-- A fetch that succeeds returns the records of the selected rows. -/
theorem getTrainTrip_ok (env : Env) (db : DB) (trip_id : String)
    (h : (getTrainTrip env db trip_id).1.2 = none) :
    (getTrainTrip env db trip_id).1.1 = (selected db.rows trip_id).map Row.toTrainInfo := by
  unfold getTrainTrip at h ⊢
  simp only [sqlSelect_eq] at h ⊢
  cases he : env.execErr with
  | some e => simp [he] at h
  | none =>
    simp only [he] at h ⊢
    cases hs : (scanLoop env 0 ((selected db.rows trip_id).map
        (fun r => selectColumns.map r.get)) []).2 with
    | some e => simp [hs] at h
    | none =>
      simp only [hs] at h ⊢
      cases hr : env.rowsErr with
      | some e => simp [hr] at h
      | none =>
        simp only [hr]
        rw [scanLoop_ok env _ 0 [] hs]
        simp

/-- A fetch during which the driver reports no failure succeeds. -/
theorem getTrainTrip_healthy (env : Env) (db : DB) (trip_id : String) (h : env.healthy) :
    (getTrainTrip env db trip_id).1.2 = none := by
  obtain ⟨he, hs, hr, -, -⟩ := h
  unfold getTrainTrip
  simp only [sqlSelect_eq, he, hr, scanLoop_healthy env hs]

/-- The row the `INSERT` builds from its column list and bound values holds
the record. -/
theorem insert_row (t : TrainInfo) (c u : Nat) :
    (Row.mk "" "" "" "" "" "" "" "" "" c u).assign insertColumns (insertArgs t)
      = Row.ofTrainInfo t c u := rfl

theorem toTrainInfo_ofTrainInfo (t : TrainInfo) (c u : Nat) :
    (Row.ofTrainInfo t c u).toTrainInfo = t := rfl

/-- A successful `insertTrain`: no row had the identifier, the new row is
added at the end, and the identifier returned is the one the store
generated. -/
theorem insertTrain_ok (env : Env) (db : DB) (t : TrainInfo)
    (h : (insertTrain env db t).1.2 = none) :
    (∀ r ∈ db.rows, r.trip_Id ≠ t.TripID) ∧
    (insertTrain env db t).2.rows = db.rows ++ [Row.ofTrainInfo t env.now env.now] ∧
    (insertTrain env db t).1.1 = env.lastInsertId.1 := by
  unfold insertTrain at h ⊢
  simp only [sqlInsert, insert_row] at h ⊢
  cases he : env.execErr with
  | some e => simp [he] at h
  | none =>
    simp only [he] at h ⊢
    by_cases hdup : (db.rows.any fun r => decide (r.trip_Id = (Row.ofTrainInfo t env.now env.now).trip_Id)) = true
    · simp [hdup] at h
    · simp only [hdup] at h ⊢
      cases hl : env.lastInsertId.2 with
      | some e => simp [hl] at h
      | none =>
        simp only [hl]
        refine ⟨?_, ?_, ?_⟩
        · intro r hr hrt
          apply hdup
          simp only [List.any_eq_true, decide_eq_true_eq]
          exact ⟨r, hr, hrt⟩
        · simp [DB.sent]
        · simp

/-- The row the `UPDATE` leaves where its key matches: identifier and creation
time kept, the eight other columns and the update time assigned. -/
theorem update_row (r : Row) (t : TrainInfo) (u : Nat) :
    sqlSet r updateColumns (updateArgs t) u
      = ⟨r.trip_Id, t.TrainNo, t.TrainTypeNameTh, t.OriginStationNo, t.DestStationNo,
         t.TripDate, t.OriginTime, t.DestTime, t.TotalDistance, r.create_date, u⟩ := rfl

/-- The `UPDATE` changes a row of its key exactly when the row differs from the
record in one of the eight attributes or from the time of the call in its
update time. -/
theorem update_row_ne (r : Row) (t : TrainInfo) (u : Nat) :
    sqlSet r updateColumns (updateArgs t) u ≠ r ↔
      (¬ r.toTrainInfo.sameData t ∨ r.update_date ≠ u) := by
  rw [update_row]
  cases r
  simp only [Row.toTrainInfo, TrainInfo.sameData, ne_eq, Row.mk.injEq, true_and, and_true]
  constructor
  · intro h
    by_contra hc
    push_neg at hc
    obtain ⟨⟨h1, h2, h3, h4, h5, h6, h7, h8⟩, h9⟩ := hc
    exact h ⟨h1.symm, h2.symm, h3.symm, h4.symm, h5.symm, h6.symm, h7.symm, h8.symm,
      h9.symm⟩
  · intro h hc
    obtain ⟨h1, h2, h3, h4, h5, h6, h7, h8, h9⟩ := hc
    rcases h with h | h
    · exact h ⟨h1.symm, h2.symm, h3.symm, h4.symm, h5.symm, h6.symm, h7.symm, h8.symm⟩
    · exact h h9.symm

/-- Every row is related to the row it was by `updatedRow`. -/
theorem sqlUpdate_rows (rows : List Row) (t : TrainInfo) (u : Nat) :
    List.Forall₂ (updatedRow t u) rows
      (sqlUpdate rows updateColumns (updateArgs t) u t.TripID).1 := by
  simp only [sqlUpdate, update_row]
  induction rows with
  | nil => exact List.Forall₂.nil
  | cons r rs ih =>
    refine List.Forall₂.cons ?_ ih
    by_cases h : r.trip_Id = t.TripID
    · simp [updatedRow, h, Row.toTrainInfo, TrainInfo.sameData]
    · simp [updatedRow, h]

/-- An `UPDATE` whose key no row has changes nothing and counts zero. -/
theorem sqlUpdate_missing (rows : List Row) (t : TrainInfo) (u : Nat)
    (h : ∀ r ∈ rows, r.trip_Id ≠ t.TripID) :
    sqlUpdate rows updateColumns (updateArgs t) u t.TripID = (rows, 0) := by
  simp only [sqlUpdate]
  apply Prod.ext
  · simp only
    conv_rhs => rw [← List.map_id rows]
    apply List.map_congr_left
    intro r hr
    simp [h r hr]
  · simp only
    have : List.filter (fun r => decide (r.trip_Id = t.TripID) &&
        decide (sqlSet r updateColumns (updateArgs t) u ≠ r)) rows = [] := by
      simp only [List.filter_eq_nil_iff, Bool.and_eq_true, decide_eq_true_eq, not_and]
      intro r hr hrt
      exact absurd hrt (h r hr)
    rw [this]
    rfl

/-- An `UPDATE` that changes some row of its key counts at least one. -/
theorem sqlUpdate_count_pos (rows : List Row) (t : TrainInfo) (u : Nat)
    (h : ∃ r ∈ rows, r.trip_Id = t.TripID ∧
      (¬ r.toTrainInfo.sameData t ∨ r.update_date ≠ u)) :
    0 < (sqlUpdate rows updateColumns (updateArgs t) u t.TripID).2 := by
  obtain ⟨r, hr, hrt, hch⟩ := h
  simp only [sqlUpdate]
  have hmem : r ∈ List.filter (fun r => decide (r.trip_Id = t.TripID) &&
      decide (sqlSet r updateColumns (updateArgs t) u ≠ r)) rows := by
    refine List.mem_filter.mpr ⟨hr, ?_⟩
    simp only [Bool.and_eq_true, decide_eq_true_eq]
    exact ⟨hrt, (update_row_ne r t u).mpr hch⟩
  have hpos := List.length_pos_of_mem hmem
  exact_mod_cast hpos

/-- With a driver that reports no failure, `updateTrain` returns the count and
leaves the rows of the `UPDATE`. -/
theorem updateTrain_healthy (env : Env) (db : DB) (t : TrainInfo) (h : env.healthy) :
    (updateTrain env db t).1 = ((sqlUpdate db.rows updateColumns (updateArgs t) env.now t.TripID).2, none) ∧
    (updateTrain env db t).2.rows
      = (sqlUpdate db.rows updateColumns (updateArgs t) env.now t.TripID).1 := by
  obtain ⟨he, -, -, -, hr⟩ := h
  unfold updateTrain
  simp [he, hr]

/-- Without a row of the identifier, `updateTrain` returns the count zero and
leaves the rows as they were, whatever the driver does. -/
theorem updateTrain_missing (env : Env) (db : DB) (t : TrainInfo)
    (h : ∀ r ∈ db.rows, r.trip_Id ≠ t.TripID) :
    (updateTrain env db t).1.1 = 0 ∧ (updateTrain env db t).2.rows = db.rows := by
  unfold updateTrain
  simp only [sqlUpdate_missing db.rows t env.now h]
  cases env.execErr with
  | some e => exact ⟨rfl, rfl⟩
  | none => cases env.rowsAffectedErr <;> exact ⟨rfl, rfl⟩

/-- A body that does not start with a well-formed value makes `Decode` fail. -/
theorem readValue_none_decode (body : String) (t : TrainInfo)
    (h : json.readValue body = none) : (json.Decode body t).2 ≠ none := by
  unfold json.Decode
  split
  · simp
  · simp [h]

/-- Every call of `insertTrain` sends one statement. -/
theorem insertTrain_log (env : Env) (db : DB) (t : TrainInfo) :
    (insertTrain env db t).2.log
      = db.log ++ [.insert insertColumns (insertArgs t) env.now env.now] := by
  unfold insertTrain
  simp only []
  split
  · rfl
  · split
    · rfl
    · split <;> rfl

/-- Every call of `updateTrain` sends one statement. -/
theorem updateTrain_log (env : Env) (db : DB) (t : TrainInfo) :
    (updateTrain env db t).2.log
      = db.log ++ [.update updateColumns (updateArgs t) env.now t.TripID] := by
  unfold updateTrain
  simp only []
  split
  · rfl
  · split <;> rfl

/-- The count `updateTrain` returns is never negative. -/
theorem updateTrain_count_nonneg (env : Env) (db : DB) (t : TrainInfo) :
    0 ≤ (updateTrain env db t).1.1 := by
  unfold updateTrain
  simp only []
  split
  · exact le_refl _
  · split
    · exact le_refl _
    · simp [sqlUpdate]

theorem isPrefixOf_sep_false (l : List Char) (h : '/' ∉ l) :
    List.isPrefixOf ['t', 'r', 'a', 'i', 'n', '/'] l = false := by
  cases hp : List.isPrefixOf ['t', 'r', 'a', 'i', 'n', '/'] l with
  | false => rfl
  | true =>
    exfalso
    have hpre := List.isPrefixOf_iff_prefix.mp hp
    exact h (hpre.subset (by simp))

/-- A text without a slash has no occurrence of `train/`: it is one piece. -/
theorem splitGo_no_slash (l : List Char) (h : '/' ∉ l) :
    ∀ cur : List Char,
      strings.splitGo ['t', 'r', 'a', 'i', 'n', '/'] 0 l cur = [cur.reverse ++ l] := by
  induction l with
  | nil => intro cur; simp [strings.splitGo]
  | cons c cs ih =>
    intro cur
    have hcs : '/' ∉ cs := fun hmem => h (List.mem_cons_of_mem _ hmem)
    rw [strings.splitGo, if_neg (by rw [isPrefixOf_sep_false _ h]; simp), ih hcs]
    simp

theorem splitGo_api (l : List Char) :
    strings.splitGo ['t', 'r', 'a', 'i', 'n', '/'] 0
        ('/' :: 'a' :: 'p' :: 'i' :: '/' :: 't' :: 'r' :: 'a' :: 'i' :: 'n' :: '/' :: l) []
      = ['/', 'a', 'p', 'i', '/'] ::
          strings.splitGo ['t', 'r', 'a', 'i', 'n', '/'] 0 l [] := by
  simp [strings.splitGo, List.isPrefixOf]

/-- The path `/api/train/` followed by a segment without a slash splits at
`train/` into `/api/` and the segment. -/
theorem split_path (id : String) (h : '/' ∉ id.data) :
    strings.Split ("/api/train/" ++ id) (trainPath ++ "/") = ["/api/", id] := by
  have h1 : ("/api/train/" ++ id).data
      = '/' :: 'a' :: 'p' :: 'i' :: '/' :: 't' :: 'r' :: 'a' :: 'i' :: 'n' :: '/' :: id.data := by
    rw [String.data_append]; rfl
  have h2 : (trainPath ++ "/").data = ['t', 'r', 'a', 'i', 'n', '/'] := by decide
  unfold strings.Split
  rw [h1, h2, splitGo_api, splitGo_no_slash _ h]
  simp

theorem sent_select (db : DB) (id : String) (h : id ≠ "") :
  db.sent (.select selectColumns (if id = "" then none else some id))
    = db.sent (.select selectColumns (some id)) := by simp [h]

/-- The encoder has no failure on a slice of records. -/
theorem Marshal_err (ts : List TrainInfo) : (json.Marshal ts).2 = none := by
  cases ts <;> rfl

/-! ## The claims -/

/-- C1, the code at a path with an extra segment.  The handler splits the path
at `train/`, not at every slash, so `/api/train/T1/x` has one piece after the
separator, `T1/x`, and passes the guard: a `GET` queries the store for the
identifier `T1/x` and answers 404 on the empty store, and a `DELETE` is
answered 405.  Neither is answered 400. -/
theorem C1_extra_segment_not_rejected :
    strings.Split "/api/train/T1/x" (trainPath ++ "/") = ["/api/", "T1/x"] ∧
    serve handleTrainTrip (Env.quiet 1 0) ⟨"GET", "/api/train/T1/x", [], ""⟩ DB.empty
      = (⟨404, [], ""⟩, ⟨[], [.select selectColumns (some "T1/x")]⟩) ∧
    serve handleTrainTrip (Env.quiet 1 0) ⟨"DELETE", "/api/train/T1/x", [], ""⟩ DB.empty
      = (⟨405, [], ""⟩, DB.empty) := by
  decide

/-- C2, the code at the example body.  The tags of `TrainInfo` are written
`json: "trip_Id"`, with a space after the colon, and `StructTag.Lookup` finds
no `json` key in such a tag (it does in `json:"trip_Id"`).  So the JSON keys
are the Go field names: the encoding of a record has the keys `TripID`,
`TrainNo` and so on, a body with those keys decodes to the record, and the
example body with the keys `trip_Id`, `train_No` and so on decodes without
error to the zero record.  Posting the example body to the empty store is
answered 201 and stores a row of empty strings, after which
`GET /api/train/T1` is answered 404. -/
theorem C2_json_keys_are_go_field_names :
    reflect.StructTag.Lookup "json: \"trip_Id\"" "json" = none ∧
    reflect.StructTag.Lookup "json:\"trip_Id\"" "json" = some "trip_Id" ∧
    json.trainInfoKeys.map Prod.fst =
      ["TripID", "TrainNo", "TrainTypeNameTh", "OriginStationNo", "DestStationNo",
       "TripDate", "OriginTime", "DestTime", "TotalDistance"] ∧
    json.Marshal [tripT1] = (marshalledT1, none) ∧
    json.Decode bodyT1new TrainInfo.zero = (tripT1new, none) ∧
    json.Decode bodyT1 TrainInfo.zero = (TrainInfo.zero, none) ∧
    serve handleTrains (Env.quiet 1 0) ⟨"POST", "/api/train", [], bodyT1⟩ DB.empty
      = (⟨201, [], "\x7b\"trip_id\":0\x7d"⟩,
         ⟨[Row.ofTrainInfo TrainInfo.zero 1 1],
          [.insert insertColumns (insertArgs TrainInfo.zero) 1 1]⟩) ∧
    (serve handleTrainTrip (Env.quiet 2 0) ⟨"GET", "/api/train/T1", [], ""⟩
      (serve handleTrains (Env.quiet 1 0) ⟨"POST", "/api/train", [], bodyT1⟩ DB.empty).2).1
      = ⟨404, [], ""⟩ := by
  decide

/-- C3, as stated, fails for the empty identifier.  Inserting `tripNoId`, whose
`TripID` is the empty string, into the store that holds `T1` succeeds, and the
following `getTrainTrip` with that `TripID` takes the branch without a filter
and returns two records, not one. -/
theorem C3_empty_identifier_fetches_all :
    (insertTrain (Env.quiet 7 0) dbT1 tripNoId).1 = (0, none) ∧
    (getTrainTrip (Env.quiet 8 0) (insertTrain (Env.quiet 7 0) dbT1 tripNoId).2
      tripNoId.TripID).1 = ([tripT1, tripNoId], none) := by
  decide

/-- C3 (amended): for every store, every record `t` whose `TripID` is not the
empty string and for which `insertTrain` succeeds, a following `getTrainTrip`
with `t.TripID`, run while the driver reports no failure, returns exactly one
record, and that record is `t`, field by field; the columns named by the
`INSERT` are, in order, the columns named by the `SELECT`. -/
theorem C3_insert_then_fetch (env env' : Env) (db : DB) (t : TrainInfo)
    (hid : t.TripID ≠ "") (hins : (insertTrain env db t).1.2 = none) (hq : env'.healthy) :
    (getTrainTrip env' (insertTrain env db t).2 t.TripID).1 = ([t], none) ∧
    insertColumns = selectColumns := by
  refine ⟨?_, rfl⟩
  obtain ⟨hfresh, hrows, -⟩ := insertTrain_ok env db t hins
  have herr := getTrainTrip_healthy env' (insertTrain env db t).2 t.TripID hq
  have hrec := getTrainTrip_ok env' (insertTrain env db t).2 t.TripID herr
  have hsel : selected (insertTrain env db t).2.rows t.TripID
      = [Row.ofTrainInfo t env.now env.now] := by
    rw [hrows]
    simp only [selected, hid, if_false, List.filter_append]
    have h1 : List.filter (fun r => decide (r.trip_Id = t.TripID)) db.rows = [] := by
      simp only [List.filter_eq_nil_iff, decide_eq_true_eq]
      exact hfresh
    rw [h1]
    simp [Row.ofTrainInfo]
  rw [hsel] at hrec
  apply Prod.ext
  · simpa [toTrainInfo_ofTrainInfo] using hrec
  · exact herr

/-- C3 witness: inserting `tripT2` into the store that holds `T1` and fetching
`T2`. -/
theorem C3_insert_then_fetch_witness :
    tripT2.TripID ≠ "" ∧ (insertTrain (Env.quiet 7 0) dbT1 tripT2).1.2 = none ∧
    (Env.quiet 8 0).healthy ∧
    (getTrainTrip (Env.quiet 8 0) (insertTrain (Env.quiet 7 0) dbT1 tripT2).2
      tripT2.TripID).1 = ([tripT2], none) :=
  ⟨by decide, by decide, by decide,
    (C3_insert_then_fetch (Env.quiet 7 0) (Env.quiet 8 0) dbT1 tripT2
      (by decide) (by decide) (by decide)).1⟩

/-- C4, as stated, fails in two ways for a row that exists.  The store `dbT1`
holds `T1` with the data of `tripT1`, last updated at time 5.  An
`updateTrain` of `tripT1` at time 5 changes nothing in that row, and the
count it returns is zero, without error.  An `updateTrain` of new data for
`T1` during which the driver fails returns the driver's error and leaves the
row as it was. -/
theorem C4_existing_row_counts_zero :
    (∃ r ∈ dbT1.rows, r.trip_Id = tripT1.TripID) ∧
    updateTrain (Env.quiet 5 0) dbT1 tripT1
      = ((0, none), ⟨[rowT1], [.update updateColumns (updateArgs tripT1) 5 "T1"]⟩) ∧
    (∃ r ∈ dbT1.rows, r.trip_Id = tripT1new.TripID) ∧
    updateTrain (Env.down 9) dbT1 tripT1new
      = ((0, some ⟨"context deadline exceeded"⟩),
         ⟨[rowT1], [.update updateColumns (updateArgs tripT1new) 9 "T1"]⟩) := by
  decide

/-- C4 (amended): for every store and record `t`.  If no row has the identifier
`t.TripID`, `updateTrain` reports zero rows affected and leaves the rows as
they are (whatever the driver does).  If a row has it and the driver reports
no failure, `updateTrain` returns no error; its count is above zero when the
update changes a row of that identifier, that is, when such a row differs
from `t` in one of the eight other attributes or has an update time other
than the time of the call; a following `getTrainTrip` with `t.TripID`, the
driver again reporting no failure, succeeds and returns a record with that
identifier whose eight other fields are those of `t`; and every row of the
store is related to the row it was by `updatedRow`: same identifier and
creation time for the rows of that identifier, no change at all for the
others. -/
theorem C4_update (env : Env) (db : DB) (t : TrainInfo) :
    ((∀ r ∈ db.rows, r.trip_Id ≠ t.TripID) →
      (updateTrain env db t).1.1 = 0 ∧ (updateTrain env db t).2.rows = db.rows) ∧
    ((∃ r ∈ db.rows, r.trip_Id = t.TripID) → env.healthy →
      (updateTrain env db t).1.2 = none ∧
      ((∃ r ∈ db.rows, r.trip_Id = t.TripID ∧
          (¬ r.toTrainInfo.sameData t ∨ r.update_date ≠ env.now)) →
        0 < (updateTrain env db t).1.1) ∧
      (∀ env' : Env, env'.healthy →
        (getTrainTrip env' (updateTrain env db t).2 t.TripID).1.2 = none ∧
        ∃ rec ∈ (getTrainTrip env' (updateTrain env db t).2 t.TripID).1.1,
          rec.TripID = t.TripID ∧ rec.sameData t) ∧
      List.Forall₂ (updatedRow t env.now) db.rows (updateTrain env db t).2.rows) := by
  refine ⟨updateTrain_missing env db t, ?_⟩
  intro hex henv
  obtain ⟨hres, hrows⟩ := updateTrain_healthy env db t henv
  refine ⟨by rw [hres], ?_, ?_, ?_⟩
  · intro hch
    rw [hres]; exact sqlUpdate_count_pos db.rows t env.now hch
  · intro env' henv'
    have herr := getTrainTrip_healthy env' (updateTrain env db t).2 t.TripID henv'
    refine ⟨herr, ?_⟩
    rw [getTrainTrip_ok env' _ _ herr, hrows]
    obtain ⟨r, hr, hrt⟩ := hex
    simp only [sqlUpdate, update_row]
    refine ⟨_, List.mem_map_of_mem Row.toTrainInfo (a := (⟨r.trip_Id, t.TrainNo, t.TrainTypeNameTh, t.OriginStationNo, t.DestStationNo,
         t.TripDate, t.OriginTime, t.DestTime, t.TotalDistance, r.create_date, env.now⟩ : Row)) ?_, hrt, ?_⟩
    · have hm : (⟨r.trip_Id, t.TrainNo, t.TrainTypeNameTh, t.OriginStationNo, t.DestStationNo,
         t.TripDate, t.OriginTime, t.DestTime, t.TotalDistance, r.create_date, env.now⟩ : Row) ∈
          List.map (fun r => if r.trip_Id = t.TripID then
            (⟨r.trip_Id, t.TrainNo, t.TrainTypeNameTh, t.OriginStationNo, t.DestStationNo,
         t.TripDate, t.OriginTime, t.DestTime, t.TotalDistance, r.create_date, env.now⟩ : Row) else r) db.rows := by
        refine List.mem_map.mpr ⟨r, hr, ?_⟩
        simp [hrt]
      unfold selected
      split
      · exact hm
      · exact List.mem_filter.mpr ⟨hm, by simp [hrt]⟩
    · simp [Row.toTrainInfo, TrainInfo.sameData]
  · rw [hrows]; exact sqlUpdate_rows db.rows t env.now

/-- C4 witness: updating `T1` with new data in the store that holds it, and
updating `T2`, which it does not hold. -/
theorem C4_update_witness :
    ((∃ r ∈ dbT1.rows, r.trip_Id = tripT1new.TripID) ∧ (Env.quiet 9 0).healthy ∧
      (∃ r ∈ dbT1.rows, r.trip_Id = tripT1new.TripID ∧
        (¬ r.toTrainInfo.sameData tripT1new ∨ r.update_date ≠ (Env.quiet 9 0).now)) ∧
      (updateTrain (Env.quiet 9 0) dbT1 tripT1new).1.2 = none ∧
      0 < (updateTrain (Env.quiet 9 0) dbT1 tripT1new).1.1 ∧
      List.Forall₂ (updatedRow tripT1new (Env.quiet 9 0).now) dbT1.rows
        (updateTrain (Env.quiet 9 0) dbT1 tripT1new).2.rows) ∧
    ((∀ r ∈ dbT1.rows, r.trip_Id ≠ tripT2.TripID) ∧
      (updateTrain (Env.quiet 9 0) dbT1 tripT2).1.1 = 0 ∧
      (updateTrain (Env.quiet 9 0) dbT1 tripT2).2.rows = dbT1.rows) :=
  ⟨⟨by decide, by decide, by decide,
      ((C4_update (Env.quiet 9 0) dbT1 tripT1new).2 (by decide) (by decide)).1,
      ((C4_update (Env.quiet 9 0) dbT1 tripT1new).2 (by decide) (by decide)).2.1
        (by decide),
      ((C4_update (Env.quiet 9 0) dbT1 tripT1new).2 (by decide) (by decide)).2.2.2⟩,
    ⟨by decide, (C4_update (Env.quiet 9 0) dbT1 tripT2).1 (by decide)⟩⟩

/-- C5, as stated, fails for a body that is not valid JSON but starts with a
JSON value.  The body `bodyTrailing` is not valid JSON; `Decode` reads the
empty object in front and stops there.  A `POST` with it is answered 201 and
adds a row to the store; a `PUT` with it calls `updateTrain` and is answered
404. -/
theorem C5_trailing_text_is_not_read :
    json.Valid bodyTrailing = false ∧
    json.Decode bodyTrailing TrainInfo.zero = (TrainInfo.zero, none) ∧
    serve handleTrains (Env.quiet 1 0) ⟨"POST", "/api/train", [], bodyTrailing⟩ dbT1
      = (⟨201, [], "\x7b\"trip_id\":0\x7d"⟩,
         ⟨[rowT1, Row.ofTrainInfo TrainInfo.zero 1 1],
          [.insert insertColumns (insertArgs TrainInfo.zero) 1 1]⟩) ∧
    serve handleTrains (Env.quiet 1 0) ⟨"PUT", "/api/train", [], bodyTrailing⟩ dbT1
      = (⟨404, [], msgNotFound⟩,
         ⟨[rowT1], [.update updateColumns (updateArgs TrainInfo.zero) 1 ""]⟩) := by
  decide

/-- C5 (amended): for every `POST` or `PUT` whose body does not start with a
well-formed JSON value, or for which `Decode` fails in any other way,
`handleTrains` answers 400 with an empty body and the store, its rows and
the history of statements sent, is as before; `insertTrain` and `updateTrain`
were not called, since either would have left a store different from the one
before. -/
theorem C5_undecodable_body (env : Env) (db : DB) (r : Request)
    (hm : r.Method = "POST" ∨ r.Method = "PUT")
    (hdec : json.readValue r.Body = none ∨ (json.Decode r.Body TrainInfo.zero).2 ≠ none) :
    serve handleTrains env r db = (⟨400, [], ""⟩, db) ∧
    (∀ t : TrainInfo, (insertTrain env db t).2 ≠ db ∧ (updateTrain env db t).2 ≠ db) := by
  have hd : (json.Decode r.Body TrainInfo.zero).2 ≠ none := by
    rcases hdec with h | h
    · exact readValue_none_decode _ _ h
    · exact h
  refine ⟨?_, ?_⟩
  · obtain ⟨e, he⟩ := Option.ne_none_iff_exists'.mp hd
    rcases hm with hm | hm
    · simp [serve, handleTrains, hm, MethodGet, MethodPost, he, ResponseWriter.WriteHeader,
        ResponseWriter.new, ResponseWriter.finish, StatusBadRequest]
    · simp [serve, handleTrains, hm, MethodGet, MethodPost, MethodPut, he,
        ResponseWriter.WriteHeader, ResponseWriter.new, ResponseWriter.finish, StatusBadRequest]
  · intro t
    constructor
    · intro h
      have := congrArg (fun d => d.log.length) h
      simp [insertTrain_log] at this
    · intro h
      have := congrArg (fun d => d.log.length) h
      simp [updateTrain_log] at this

/-- C5 witness: a `POST` whose body is plain text. -/
theorem C5_undecodable_body_witness :
    json.readValue "not json" = none ∧
    serve handleTrains (Env.quiet 1 0) ⟨"POST", "/api/train", [], "not json"⟩ dbT1
      = (⟨400, [], ""⟩, dbT1) :=
  ⟨by rfl,
    (C5_undecodable_body (Env.quiet 1 0) dbT1 ⟨"POST", "/api/train", [], "not json"⟩
      (Or.inl rfl) (Or.inl (by rfl))).1⟩

/-- C6: for every `POST`, `handleTrains` answers 201 exactly when the body
decodes and `insertTrain` of the decoded record succeeds, and 400 otherwise;
on 201 the body is the text `{"trip_id":N}` with `N` the identifier
`insertTrain` returned, in decimal; on 400 the body is empty. -/
theorem C6_post (env : Env) (db : DB) (r : Request) (hm : r.Method = "POST") :
    ((serve handleTrains env r db).1.status = 201 ↔
      (json.Decode r.Body TrainInfo.zero).2 = none ∧
      (insertTrain env db (json.Decode r.Body TrainInfo.zero).1).1.2 = none) ∧
    ((serve handleTrains env r db).1.status = 201 ∨
      (serve handleTrains env r db).1.status = 400) ∧
    ((serve handleTrains env r db).1.status = 201 →
      (serve handleTrains env r db).1.body = "\x7b\"trip_id\":" ++
        toString (insertTrain env db (json.Decode r.Body TrainInfo.zero).1).1.1 ++ "\x7d") ∧
    ((serve handleTrains env r db).1.status = 400 →
      (serve handleTrains env r db).1.body = "") := by
  cases hd : (json.Decode r.Body TrainInfo.zero).2 with
  | some e =>
    simp [serve, handleTrains, hm, MethodGet, MethodPost, hd, ResponseWriter.WriteHeader,
      ResponseWriter.new, ResponseWriter.finish, StatusBadRequest]
  | none =>
    cases hi : (insertTrain env db (json.Decode r.Body TrainInfo.zero).1).1.2 with
    | some e =>
      simp [serve, handleTrains, hm, MethodGet, MethodPost, hd, hi, ResponseWriter.WriteHeader,
        ResponseWriter.new, ResponseWriter.finish, StatusBadRequest]
    | none =>
      simp [serve, handleTrains, hm, MethodGet, MethodPost, hd, hi, ResponseWriter.WriteHeader,
        ResponseWriter.Write, ResponseWriter.new, ResponseWriter.finish, StatusCreated,
        StatusOK, sprintfTripId]

/-- C6 witness: posting `T2` to the store that holds `T1`, the store generating
the identifier 42. -/
theorem C6_post_witness :
    (serve handleTrains (Env.quiet 1 42) ⟨"POST", "/api/train", [], bodyT2⟩ dbT1).1.status
      = 201 ∧
    ((serve handleTrains (Env.quiet 1 42) ⟨"POST", "/api/train", [], bodyT2⟩ dbT1).1.status
        = 201 →
      (serve handleTrains (Env.quiet 1 42) ⟨"POST", "/api/train", [], bodyT2⟩ dbT1).1.body
        = "\x7b\"trip_id\":" ++
          toString (insertTrain (Env.quiet 1 42) dbT1
            (json.Decode bodyT2 TrainInfo.zero).1).1.1 ++ "\x7d") :=
  ⟨(C6_post (Env.quiet 1 42) dbT1 ⟨"POST", "/api/train", [], bodyT2⟩ rfl).1.mpr
      ⟨by decide, by decide⟩,
    (C6_post (Env.quiet 1 42) dbT1 ⟨"POST", "/api/train", [], bodyT2⟩ rfl).2.2.1⟩

/-- C7: for every `PUT` whose body decodes to a record `t`, `handleTrains`
answers 500 with an empty body when `updateTrain t` returns an error, 404
with the not-found message when it returns no error and the count zero, 200
with the success message when it returns no error and a count above zero;
one of the three cases always holds, and each status is given in its own case
only. -/
theorem C7_put (env : Env) (db : DB) (r : Request) (t : TrainInfo)
    (hm : r.Method = "PUT") (hdec : json.Decode r.Body TrainInfo.zero = (t, none)) :
    ((updateTrain env db t).1.2 ≠ none →
      (serve handleTrains env r db).1 = ⟨500, [], ""⟩) ∧
    ((updateTrain env db t).1.2 = none → (updateTrain env db t).1.1 = 0 →
      (serve handleTrains env r db).1 = ⟨404, [], msgNotFound⟩) ∧
    ((updateTrain env db t).1.2 = none → 0 < (updateTrain env db t).1.1 →
      (serve handleTrains env r db).1 = ⟨200, [], msgUpdated⟩) ∧
    ((updateTrain env db t).1.2 ≠ none ∨
      ((updateTrain env db t).1.2 = none ∧ (updateTrain env db t).1.1 = 0) ∨
      ((updateTrain env db t).1.2 = none ∧ 0 < (updateTrain env db t).1.1)) ∧
    ((serve handleTrains env r db).1.status = 500 ↔ (updateTrain env db t).1.2 ≠ none) ∧
    ((serve handleTrains env r db).1.status = 404 ↔
      ((updateTrain env db t).1.2 = none ∧ (updateTrain env db t).1.1 = 0)) ∧
    ((serve handleTrains env r db).1.status = 200 ↔
      ((updateTrain env db t).1.2 = none ∧ 0 < (updateTrain env db t).1.1)) := by
  have hnn := updateTrain_count_nonneg env db t
  cases hu : (updateTrain env db t).1.2 with
  | some e =>
    simp [serve, handleTrains, hm, MethodGet, MethodPost, MethodPut, hdec, hu,
      ResponseWriter.WriteHeader, ResponseWriter.new, ResponseWriter.finish,
      StatusInternalServerError]
  | none =>
    by_cases hz : (updateTrain env db t).1.1 = 0
    · simp [serve, handleTrains, hm, MethodGet, MethodPost, MethodPut, hdec, hu, hz,
        ResponseWriter.WriteHeader, ResponseWriter.Write, ResponseWriter.new,
        ResponseWriter.finish, StatusNotFound, StatusOK]
    · have hpos : 0 < (updateTrain env db t).1.1 := lt_of_le_of_ne hnn (Ne.symm hz)
      simp [serve, handleTrains, hm, MethodGet, MethodPost, MethodPut, hdec, hu, hz, hpos,
        ResponseWriter.WriteHeader, ResponseWriter.Write, ResponseWriter.new,
        ResponseWriter.finish, StatusOK]

/-- C7 witness: a `PUT` of new data for `T1` to the store that holds it. -/
theorem C7_put_witness :
    json.Decode bodyT1new TrainInfo.zero = (tripT1new, none) ∧
    (updateTrain (Env.quiet 9 0) dbT1 tripT1new).1.2 = none ∧
    0 < (updateTrain (Env.quiet 9 0) dbT1 tripT1new).1.1 ∧
    (serve handleTrains (Env.quiet 9 0) ⟨"PUT", "/api/train", [], bodyT1new⟩ dbT1).1
      = ⟨200, [], msgUpdated⟩ :=
  ⟨by decide, by decide, by decide,
    (C7_put (Env.quiet 9 0) dbT1 ⟨"PUT", "/api/train", [], bodyT1new⟩ tripT1new rfl
      (by decide)).2.2.1 (by decide) (by decide)⟩

/-- C8: for every request whose path is `/api/train/` followed by one non-empty
segment `id` (no slash in it).  With `GET`, `handleTrainTrip` answers 500
when `getTrainTrip id` fails, 404 when it returns no record, and otherwise 200
with the JSON array of the records of the rows whose identifier is `id`; the
one statement it sends is the `SELECT` with the filter `id`.  With any other
method it answers 405 and the store, history included, is as before. -/
theorem C8_resource (env : Env) (db : DB) (method id : String) (query : Values)
    (body : String) (hne : id ≠ "") (hseg : '/' ∉ id.data) :
    (method = "GET" →
      ((getTrainTrip env db id).1.2 ≠ none →
        (serve handleTrainTrip env ⟨method, "/api/train/" ++ id, query, body⟩ db).1
          = ⟨500, [], ""⟩) ∧
      ((getTrainTrip env db id).1.2 = none → (getTrainTrip env db id).1.1 = [] →
        (serve handleTrainTrip env ⟨method, "/api/train/" ++ id, query, body⟩ db).1
          = ⟨404, [], ""⟩) ∧
      ((getTrainTrip env db id).1.2 = none → (getTrainTrip env db id).1.1 ≠ [] →
        (serve handleTrainTrip env ⟨method, "/api/train/" ++ id, query, body⟩ db).1
          = ⟨200, [], String.mk ('[' :: (json.joinComma
              (((db.rows.filter (fun r => r.trip_Id = id)).map Row.toTrainInfo).map
                json.encodeTrainInfo) ++ [']']))⟩) ∧
      (serve handleTrainTrip env ⟨method, "/api/train/" ++ id, query, body⟩ db).2
        = db.sent (.select selectColumns (some id))) ∧
    (method ≠ "GET" →
      serve handleTrainTrip env ⟨method, "/api/train/" ++ id, query, body⟩ db
        = (⟨405, [], ""⟩, db)) := by
  have hsplit := split_path id hseg
  constructor
  · intro hm
    subst hm
    have hdb := getTrainTrip_db env db id
    rw [sent_select db id hne] at hdb
    cases hg : (getTrainTrip env db id).1.2 with
    | some e =>
      simp [serve, handleTrainTrip, hsplit, hne, MethodGet, hg, hdb,
        ResponseWriter.WriteHeader, ResponseWriter.new, ResponseWriter.finish,
        StatusInternalServerError]
    | none =>
      have hrec := getTrainTrip_ok env db id hg
      simp only [selected, hne, if_false] at hrec
      by_cases hnil : (getTrainTrip env db id).1.1 = []
      · simp [serve, handleTrainTrip, hsplit, hne, MethodGet, hg, hdb, hnil,
          ResponseWriter.WriteHeader, ResponseWriter.new, ResponseWriter.finish,
          StatusNotFound]
      · have hm : (json.Marshal (getTrainTrip env db id).1.1).1 = String.mk ('[' :: (json.joinComma
              (((db.rows.filter (fun r => r.trip_Id = id)).map Row.toTrainInfo).map
                json.encodeTrainInfo) ++ [']'])) := by
          rw [← hrec]
          cases hl : (getTrainTrip env db id).1.1 with
          | nil => exact absurd hl hnil
          | cons a as => rfl
        simp [serve, handleTrainTrip, hsplit, hne, MethodGet, hg, hdb, hnil, Marshal_err, hm,
          ResponseWriter.WriteHeader, ResponseWriter.Write, ResponseWriter.new,
          ResponseWriter.finish, StatusOK]
  · intro hm
    simp [serve, handleTrainTrip, hsplit, hne, MethodGet, hm,
      ResponseWriter.WriteHeader, ResponseWriter.new, ResponseWriter.finish,
      StatusMethodNotAllowed]

/-- C8 witness: `GET /api/train/T1` and `DELETE /api/train/T1` on the store that
holds `T1`. -/
theorem C8_resource_witness :
    ("T1" ≠ "" ∧ '/' ∉ "T1".data) ∧
    (serve handleTrainTrip (Env.quiet 1 0) ⟨"GET", "/api/train/" ++ "T1", [], ""⟩ dbT1).2
      = dbT1.sent (.select selectColumns (some "T1")) ∧
    serve handleTrainTrip (Env.quiet 1 0) ⟨"DELETE", "/api/train/" ++ "T1", [], ""⟩ dbT1
      = (⟨405, [], ""⟩, dbT1) :=
  ⟨⟨by decide, by decide⟩,
    ((C8_resource (Env.quiet 1 0) dbT1 "GET" "T1" [] "" (by decide) (by decide)).1 rfl).2.2.2,
    (C8_resource (Env.quiet 1 0) dbT1 "DELETE" "T1" [] "" (by decide) (by decide)).2
      (by decide)⟩

/-- C9, as stated, fails for an empty result: a `GET` on the store without rows
is answered 200 with the body `null`, the encoding of the nil slice, which is
not an empty JSON array. -/
theorem C9_empty_result_is_null :
    (getTrainTrip (Env.quiet 1 0) DB.empty "").1 = ([], none) ∧
    (serve handleTrains (Env.quiet 1 0) ⟨"GET", "/api/train", [], ""⟩ DB.empty).1
      = ⟨200, [("Content-Type", ["application/json"])], "null"⟩ ∧
    (serve handleTrains (Env.quiet 1 0) ⟨"GET", "/api/train", [], ""⟩ DB.empty).1.body
      ≠ "[]" := by
  decide

/-- C9 (amended): for every `GET`.  When the fetch succeeds, `handleTrains`
answers 200 and the body is the encoding of the records of the selected rows:
all rows when the `trip_id` parameter is absent or empty, the rows whose
identifier is `trip_id` otherwise; the body is the JSON array of those records
when there is at least one, and the text `null` when there is none.  When the
fetch fails the answer is 500 with an empty body. -/
theorem C9_collection_get (env : Env) (db : DB) (r : Request) (hm : r.Method = "GET") :
    ((getTrainTrip env db (r.Query.Get "trip_id")).1.2 = none →
      (serve handleTrains env r db).1.status = 200 ∧
      (serve handleTrains env r db).1.body
        = (json.Marshal ((selected db.rows (r.Query.Get "trip_id")).map Row.toTrainInfo)).1 ∧
      (selected db.rows (r.Query.Get "trip_id") = [] →
        (serve handleTrains env r db).1.body = "null") ∧
      (selected db.rows (r.Query.Get "trip_id") ≠ [] →
        (serve handleTrains env r db).1.body
          = String.mk ('[' :: (json.joinComma
              (((selected db.rows (r.Query.Get "trip_id")).map Row.toTrainInfo).map
                json.encodeTrainInfo) ++ [']'])))) ∧
    ((getTrainTrip env db (r.Query.Get "trip_id")).1.2 ≠ none →
      (serve handleTrains env r db).1 = ⟨500, [], ""⟩) := by
  cases hg : (getTrainTrip env db (r.Query.Get "trip_id")).1.2 with
  | some e =>
    simp [serve, handleTrains, hm, MethodGet, hg, ResponseWriter.WriteHeader,
      ResponseWriter.new, ResponseWriter.finish, StatusInternalServerError]
  | none =>
    have hrec := getTrainTrip_ok env db _ hg
    have hbody : (serve handleTrains env r db).1.body
        = (json.Marshal ((selected db.rows (r.Query.Get "trip_id")).map Row.toTrainInfo)).1 := by
      simp [serve, handleTrains, hm, MethodGet, hg, hrec, Marshal_err,
        ResponseWriter.WriteHeader, ResponseWriter.Write, ResponseWriter.HeaderSet,
        ResponseWriter.new, ResponseWriter.finish, StatusOK]
    refine ⟨fun _ => ⟨?_, hbody, ?_, ?_⟩, fun h => absurd rfl h⟩
    · simp [serve, handleTrains, hm, MethodGet, hg, hrec, Marshal_err,
        ResponseWriter.WriteHeader, ResponseWriter.Write, ResponseWriter.HeaderSet,
        ResponseWriter.new, ResponseWriter.finish, StatusOK]
    · intro hnil
      rw [hbody, hnil]
      rfl
    · intro hne
      rw [hbody]
      cases hl : selected db.rows (r.Query.Get "trip_id") with
      | nil => exact absurd hl hne
      | cons a as => rfl

/-- C9 witness: `GET /api/train?trip_id=T1` on the store that holds `T1`. -/
theorem C9_collection_get_witness :
    (getTrainTrip (Env.quiet 1 0) dbT1
      (Values.Get [("trip_id", ["T1"])] "trip_id")).1.2 = none ∧
    (serve handleTrains (Env.quiet 1 0)
      ⟨"GET", "/api/train", [("trip_id", ["T1"])], ""⟩ dbT1).1.status = 200 ∧
    (serve handleTrains (Env.quiet 1 0)
      ⟨"GET", "/api/train", [("trip_id", ["T1"])], ""⟩ dbT1).1.body
      = (json.Marshal ((selected dbT1.rows
          (Values.Get [("trip_id", ["T1"])] "trip_id")).map Row.toTrainInfo)).1 :=
  ⟨by decide,
    ((C9_collection_get (Env.quiet 1 0) dbT1
      ⟨"GET", "/api/train", [("trip_id", ["T1"])], ""⟩ rfl).1 (by decide)).1,
    ((C9_collection_get (Env.quiet 1 0) dbT1
      ⟨"GET", "/api/train", [("trip_id", ["T1"])], ""⟩ rfl).1 (by decide)).2.1⟩

/-- C10: for every store and every request passed through `corsMiddleware` to
`handleTrains` whose method is none of `GET`, `POST`, `PUT`.  The answer to
`OPTIONS` is 200 with an empty body, the answer to any other such method is
405; the store, history included, is as before; the header of the response is
the four entries set by the middleware: `Access-Control-Allow-Origin: *`,
`Access-Control-Allow-Methods: POST, GET, OPTIONS, PUT`, the fixed list of
`Access-Control-Allow-Headers`, and `Content-Type: application/json`. -/
theorem C10_cors (env : Env) (db : DB) (r : Request)
    (hg : r.Method ≠ "GET") (hp : r.Method ≠ "POST") (hu : r.Method ≠ "PUT") :
    (r.Method = "OPTIONS" →
      (serve (corsMiddleware handleTrains) env r db).1.status = 200 ∧
      (serve (corsMiddleware handleTrains) env r db).1.body = "") ∧
    (r.Method ≠ "OPTIONS" →
      (serve (corsMiddleware handleTrains) env r db).1.status = 405) ∧
    (serve (corsMiddleware handleTrains) env r db).2 = db ∧
    (serve (corsMiddleware handleTrains) env r db).1.header = corsHeader ∧
    (serve (corsMiddleware handleTrains) env r db).1.header.Get "Access-Control-Allow-Origin"
      = "*" ∧
    (serve (corsMiddleware handleTrains) env r db).1.header.Get "Access-Control-Allow-Methods"
      = "POST, GET, OPTIONS, PUT" ∧
    (serve (corsMiddleware handleTrains) env r db).1.header.Get "Access-Control-Allow-Headers"
      = "Accept, Content-Type, Content-Length, Authorization, X-Custom-Header, x-requested-with" ∧
    (serve (corsMiddleware handleTrains) env r db).1.header.Get "Content-Type"
      = "application/json" := by
  have hh : (serve (corsMiddleware handleTrains) env r db).1.header = corsHeader := by
    by_cases ho : r.Method = "OPTIONS"
    · simp [serve, corsMiddleware, handleTrains, hg, hp, hu, ho, MethodGet, MethodPost,
        MethodPut, MethodOptions, ResponseWriter.WriteHeader, ResponseWriter.HeaderSet,
        ResponseWriter.HeaderAdd, ResponseWriter.new, ResponseWriter.finish, Header.Add,
        Header.Set, StatusOK, corsHeader]
    · simp [serve, corsMiddleware, handleTrains, hg, hp, hu, ho, MethodGet, MethodPost,
        MethodPut, MethodOptions, ResponseWriter.WriteHeader, ResponseWriter.HeaderSet,
        ResponseWriter.HeaderAdd, ResponseWriter.new, ResponseWriter.finish, Header.Add,
        Header.Set, StatusMethodNotAllowed, corsHeader]
  refine ⟨?_, ?_, ?_, hh, ?_, ?_, ?_, ?_⟩
  · intro ho
    simp [serve, corsMiddleware, handleTrains, ho, MethodGet, MethodPost,
      MethodPut, MethodOptions, ResponseWriter.WriteHeader, ResponseWriter.HeaderSet,
      ResponseWriter.HeaderAdd, ResponseWriter.new, ResponseWriter.finish, StatusOK]
  · intro ho
    simp [serve, corsMiddleware, handleTrains, hg, hp, hu, ho, MethodGet, MethodPost,
      MethodPut, MethodOptions, ResponseWriter.WriteHeader, ResponseWriter.HeaderSet,
      ResponseWriter.HeaderAdd, ResponseWriter.new, ResponseWriter.finish,
      StatusMethodNotAllowed]
  · by_cases ho : r.Method = "OPTIONS" <;>
      simp [serve, corsMiddleware, handleTrains, hg, hp, hu, ho, MethodGet, MethodPost,
        MethodPut, MethodOptions]
  · rw [hh]; decide
  · rw [hh]; decide
  · rw [hh]; decide
  · rw [hh]; decide

/-- C10 witness: `OPTIONS /api/train` and `DELETE /api/train` on the store that
holds `T1`. -/
theorem C10_cors_witness :
    ((serve (corsMiddleware handleTrains) (Env.quiet 1 0)
        ⟨"OPTIONS", "/api/train", [], ""⟩ dbT1).1.status = 200 ∧
      (serve (corsMiddleware handleTrains) (Env.quiet 1 0)
        ⟨"OPTIONS", "/api/train", [], ""⟩ dbT1).1.body = "") ∧
    (serve (corsMiddleware handleTrains) (Env.quiet 1 0)
      ⟨"DELETE", "/api/train", [], ""⟩ dbT1).1.status = 405 :=
  ⟨(C10_cors (Env.quiet 1 0) dbT1 ⟨"OPTIONS", "/api/train", [], ""⟩
      (by decide) (by decide) (by decide)).1 rfl,
    (C10_cors (Env.quiet 1 0) dbT1 ⟨"DELETE", "/api/train", [], ""⟩
      (by decide) (by decide) (by decide)).2.1 (by decide)⟩

end GoApiTrain
